import Mathlib

/-
Verification of the RESP key-value/stream server (Rust sources under src/).

This file shallowly embeds the parts of the program the checked claims are
about, and proves theorems about the embedding:

* the stream data structure and its ID rules (src/store/stream.rs),
* the RESP byte-level codec (src/connection/parser.rs, src/connection/fmt.rs),
* the master actor: command dispatch, transactions, WAIT, blocking XREAD
  (src/actor/master.rs),
* the replica actor: command application and offset tracking
  (src/actor/stores/replica.rs).

Modelling conventions:
* Rust `usize`/`u64` counters become `Nat` (no overflow is reachable at the
  sizes involved: byte lengths and millisecond clocks, far below 2^64).
* Wall-clock reads (`Utc::now()`, `Instant::now()`) become an explicit `now`
  parameter; the clock is taken non-negative, so `usize::try_from(now)`
  always succeeds in the modelled range.
* Rust `String` data becomes Lean `String`; Rust byte buffers become
  `List Nat` (each element a byte value). `str::len()` is the UTF-8 byte
  length, i.e. `String.utf8ByteSize`.
* A Rust panic (explicit `panic!`, `expect` on `None`, or a blocking
  `recv()` that can never be answered) is modelled by `Option.none`;
  functions that can panic return `Option`.
* `HashMap`/`IndexMap` keyed stores become insertion-ordered association
  lists (`List (key × value)`); no claim depends on hash iteration order.
-/

namespace RedisModel

/-! ## Stream entry identifiers (src/store/stream.rs) -/

/-- Mirrors `StreamEntryId { timestamp: usize, sequence_number: usize }`. -/
structure StreamEntryId where
  timestamp : Nat
  sequence_number : Nat
deriving DecidableEq, Repr

/-- Mirrors `impl Ord for StreamEntryId`: compare timestamps, then
sequence numbers (lexicographic order on the pair). -/
def seidCmp (a b : StreamEntryId) : Ordering :=
  match compare a.timestamp b.timestamp, compare a.sequence_number b.sequence_number with
  | .lt, _ => .lt
  | .gt, _ => .gt
  | .eq, .lt => .lt
  | .eq, .gt => .gt
  | .eq, .eq => .eq

/-- Rust `id <= last_id` via the derived `PartialOrd`: `cmp ≠ Greater`. -/
def seidLe (a b : StreamEntryId) : Bool :=
  seidCmp a b ≠ Ordering.gt

/-- Rust `id < other` via the derived `PartialOrd`: `cmp = Less`. -/
def seidLt (a b : StreamEntryId) : Bool :=
  seidCmp a b = Ordering.lt

/-- Mirrors `impl Display for StreamEntryId`: `"{timestamp}-{sequence_number}"`. -/
def seidDisplay (id : StreamEntryId) : String :=
  toString id.timestamp ++ "-" ++ toString id.sequence_number

/-! ## Stream entries and the store (src/store/stream.rs) -/

/-- Stream-entry payload: Rust `IndexMap<String, String>` content, modelled
as its insertion-ordered key/value pairs. -/
abbrev Values := List (String × String)

/-- Mirrors `StreamEntry { id, values }`. -/
structure StreamEntry where
  id : StreamEntryId
  values : Values
deriving DecidableEq, Repr

/-- Mirrors the store's `ValueType` (string or stream variants), as used by
`src/store/stream.rs` via `ValueType::Stream(..)`. -/
inductive ValueType where
  | string (s : String)
  | stream (entries : List StreamEntry)
deriving DecidableEq, Repr

/-- Mirrors `Item { value, expiry }`; the expiry instant is absolute
milliseconds. -/
structure Item where
  value : ValueType
  expiry : Option Nat
deriving DecidableEq, Repr

/-- The keyed dictionary inside `Store`, modelled as an insertion-ordered
association list (the claims do not depend on hash iteration order). -/
abbrev Store := List (String × Item)

/-- Keyed lookup (`self.store.get(key)`). -/
def storeGet : Store → String → Option Item
  | [], _ => none
  | (k', it) :: rest, k => if k' = k then some it else storeGet rest k

/-- Keyed insert (`self.store.insert(key, item)`): replaces the value of an
existing key in place, otherwise appends. -/
def storeInsert : Store → String → Item → Store
  | [], k, it => [(k, it)]
  | (k', it') :: rest, k, it =>
    if k' = k then (k, it) :: rest else (k', it') :: storeInsert rest k it

/-- In-place update of the stream held at `key` (the effect of mutating
through `store.get_mut(key)`); the item's expiry and position are kept. -/
def storeSetStream : Store → String → List StreamEntry → Store
  | [], _, _ => []
  | (k', it) :: rest, k, s =>
    if k' = k then (k, { it with value := ValueType.stream s }) :: rest
    else (k', it) :: storeSetStream rest k s

/-- Mirrors `RequestedStreamEntryId`. -/
inductive RequestedStreamEntryId where
  | Explicit (id : StreamEntryId)
  | AutoGenerateSequence (timestamp : Nat)
  | AutoGenerate
deriving DecidableEq, Repr

/-- Mirrors `AddStreamEntryError`. -/
inductive AddStreamEntryError where
  | EqualOrSmallerID
  | GreaterThanZeroZero
deriving DecidableEq, Repr

/-- Mirrors `impl Display for AddStreamEntryError`: the exact user-visible
error strings. -/
def addStreamEntryErrorMessage : AddStreamEntryError → String
  | .EqualOrSmallerID =>
    "ERR The ID specified in XADD is equal or smaller than the target stream top item"
  | .GreaterThanZeroZero =>
    "ERR The ID specified in XADD must be greater than 0-0"

/-- Mirrors `append_to_existing_stream`. `now` is the wall clock in
milliseconds (`Utc::now().timestamp_millis()`). Returns `none` for the
`expect("Cannot be empty")` panic on an empty stream; on an error result
the stream is not touched (the entry is pushed only on the `Ok` path). -/
def append_to_existing_stream (existing : List StreamEntry)
    (id_request : RequestedStreamEntryId) (entry : Values) (now : Nat) :
    Option (Except AddStreamEntryError (StreamEntryId × List StreamEntry)) :=
  match existing.getLast? with
  | none => none
  | some last_entry =>
    let last_id := last_entry.id
    let idRes : Except AddStreamEntryError StreamEntryId :=
      match id_request with
      | .Explicit id =>
        if id = ⟨0, 0⟩ then .error .GreaterThanZeroZero
        else if seidLe id last_id then .error .EqualOrSmallerID
        else .ok id
      | .AutoGenerateSequence ts =>
        match compare ts last_id.timestamp with
        | .gt => .ok ⟨ts, 0⟩
        | .eq => .ok ⟨ts, last_id.sequence_number + 1⟩
        | .lt => .error .EqualOrSmallerID
      | .AutoGenerate =>
        match compare now last_id.timestamp with
        | .gt => .ok ⟨now, 0⟩
        | .eq => .ok ⟨now, last_id.sequence_number + 1⟩
        | .lt => .ok ⟨last_id.timestamp, last_id.sequence_number + 1⟩
    some (idRes.map fun id => (id, existing ++ [⟨id, entry⟩]))

/-- Mirrors `Store::create_new_stream`; on an error the store is not
touched. -/
def create_new_stream (store : Store) (key : String)
    (id_request : RequestedStreamEntryId) (entry : Values)
    (expiry : Option Nat) (now : Nat) :
    Except AddStreamEntryError StreamEntryId × Store :=
  let idRes : Except AddStreamEntryError StreamEntryId :=
    match id_request with
    | .Explicit id =>
      if id = ⟨0, 0⟩ then .error .GreaterThanZeroZero else .ok id
    | .AutoGenerateSequence ts => .ok ⟨ts, if ts = 0 then 1 else 0⟩
    | .AutoGenerate => .ok ⟨now, if now = 0 then 1 else 0⟩
  match idRes with
  | .error e => (.error e, store)
  | .ok id =>
    (.ok id, storeInsert store key ⟨ValueType.stream [⟨id, entry⟩], expiry⟩)

/-- Mirrors `Store::add_stream_entry`: append to an existing stream value,
or start a fresh stream when the key is absent or holds a non-stream. -/
def add_stream_entry (store : Store) (key : String)
    (id_request : RequestedStreamEntryId) (entry : Values)
    (ttl : Option Nat) (now : Nat) :
    Option (Except AddStreamEntryError StreamEntryId × Store) :=
  let expiry := ttl.map (fun s => now + s)
  match storeGet store key with
  | some ⟨ValueType.stream existing, _⟩ =>
    (append_to_existing_stream existing id_request entry now).map fun res =>
      match res with
      | .error e => (.error e, store)
      | .ok (id, newStream) => (.ok id, storeSetStream store key newStream)
  | _ => some (create_new_stream store key id_request entry expiry now)

/-- Mirrors `Store::get_stream_range`: inclusive filter between the optional
bounds; an absent key or a non-stream value yields the empty list. Expiry is
not consulted. -/
def get_stream_range (store : Store) (key : String)
    (start stop : Option StreamEntryId) : List StreamEntry :=
  match storeGet store key with
  | some ⟨ValueType.stream s, _⟩ =>
    s.filter fun e =>
      (match start with
       | some start_id => seidLe start_id e.id
       | none => true) &&
      (match stop with
       | some end_id => seidLe e.id end_id
       | none => true)
  | _ => []

/-! ## Store well-formedness (spec invariant I1) -/

/-- A stream value is well-formed when it is non-empty (the append path
`expect`s this) and its entries are strictly increasing in id. -/
def StreamWF (s : List StreamEntry) : Prop :=
  s ≠ [] ∧ List.Chain' (fun a b => seidLt a.id b.id = true) s

/-- Every stream value in the store is well-formed. -/
def StoreWF (store : Store) : Prop :=
  ∀ k it, storeGet store k = some it →
    ∀ s, it.value = ValueType.stream s → StreamWF s

/-! ## Bytes and decimal literals -/

/-- Little-endian decimal digits of `n` (`[n % 10, …]`; `[0]` for `0`). -/
def decDigitsRev (n : Nat) : List Nat :=
  if h : n < 10 then [n]
  else (n % 10) :: decDigitsRev (n / 10)
decreasing_by
  exact Nat.div_lt_self (by omega) (by omega)

/-- ASCII bytes of `n` in decimal, most significant digit first: the bytes
Rust's `format!("{n}")` writes for an unsigned integer. -/
def natToDecBytes (n : Nat) : List Nat :=
  (decDigitsRev n).reverse.map (fun d => d + 48)

/-- Accumulate decimal digit bytes (`foldl` of `acc * 10 + digit`). -/
def decAccum (bs : List Nat) : Nat :=
  bs.foldl (fun acc b => acc * 10 + (b - 48)) 0

/-- Decimal-digit run parse: `some` exactly when the bytes are one or more
ASCII digits. -/
def parseDigits (bs : List Nat) : Option Nat :=
  if bs = [] then none
  else if bs.all (fun b => decide (48 ≤ b ∧ b ≤ 57)) then some (decAccum bs)
  else none

/-- Mirrors `from_utf8(..)?.parse::<usize>()` on a byte run: an optional
leading `+` then one or more ASCII digits (invalid UTF-8 contains a
non-digit byte, so the combined failure conditions coincide; overflow is
not modelled — buffer lengths stay far below `2^64`). -/
def parse_rust_usize (bs : List Nat) : Option Nat :=
  match bs with
  | 43 :: rest => parseDigits rest
  | _ => parseDigits bs

/-- Continuation byte of a multi-byte UTF-8 sequence. -/
def utf8Cont (b : Nat) : Bool :=
  decide (0x80 ≤ b ∧ b ≤ 0xBF)

/-- UTF-8 validity of a byte run, as Rust's `str::from_utf8` checks it
(shortest forms only, no surrogates, max U+10FFFF). -/
def validUtf8 : List Nat → Bool
  | [] => true
  | b :: rest =>
    if b ≤ 0x7F then validUtf8 rest
    else if 0xC2 ≤ b ∧ b ≤ 0xDF then
      match rest with
      | c1 :: rest2 => utf8Cont c1 && validUtf8 rest2
      | _ => false
    else if b = 0xE0 then
      match rest with
      | c1 :: c2 :: rest2 =>
        decide (0xA0 ≤ c1 ∧ c1 ≤ 0xBF) && utf8Cont c2 && validUtf8 rest2
      | _ => false
    else if (0xE1 ≤ b ∧ b ≤ 0xEC) ∨ (0xEE ≤ b ∧ b ≤ 0xEF) then
      match rest with
      | c1 :: c2 :: rest2 => utf8Cont c1 && utf8Cont c2 && validUtf8 rest2
      | _ => false
    else if b = 0xED then
      match rest with
      | c1 :: c2 :: rest2 =>
        decide (0x80 ≤ c1 ∧ c1 ≤ 0x9F) && utf8Cont c2 && validUtf8 rest2
      | _ => false
    else if b = 0xF0 then
      match rest with
      | c1 :: c2 :: c3 :: rest2 =>
        decide (0x90 ≤ c1 ∧ c1 ≤ 0xBF) && utf8Cont c2 && utf8Cont c3 &&
          validUtf8 rest2
      | _ => false
    else if 0xF1 ≤ b ∧ b ≤ 0xF3 then
      match rest with
      | c1 :: c2 :: c3 :: rest2 =>
        utf8Cont c1 && utf8Cont c2 && utf8Cont c3 && validUtf8 rest2
      | _ => false
    else if b = 0xF4 then
      match rest with
      | c1 :: c2 :: c3 :: rest2 =>
        decide (0x80 ≤ c1 ∧ c1 ≤ 0x8F) && utf8Cont c2 && utf8Cont c3 &&
          validUtf8 rest2
      | _ => false
    else false

/-! ## RESP decoder (src/connection/parser.rs) -/

/-- Mirrors `CommandVerb`: the recognized verbs. `EXEC` and `DISCARD` are
matched by the dispatcher (src/actor/master.rs) and listed by the spec's
§4.1 verb table; the snapshotted connection/parser.rs predates them, so
their two table entries are modelled from the spec. -/
inductive CommandVerb where
  | PING | ECHO | SET | GET | TYPE | XADD | XRANGE | XREAD
  | CONFIG | KEYS | INFO | REPLCONF | PSYNC | WAIT | INCR | MULTI
  | EXEC | DISCARD
deriving DecidableEq, Repr

/-- ASCII uppercase of one byte. Models Rust's `to_uppercase()` for the
ASCII tokens the verb table can match (a token whose ASCII uppercase is a
verb name consists of ASCII letters, on which Unicode and ASCII uppercase
agree). -/
def asciiUpperByte (b : Nat) : Nat :=
  if 97 ≤ b ∧ b ≤ 122 then b - 32 else b

/-- ASCII uppercase of a byte run. -/
def asciiUpper (bs : List Nat) : List Nat :=
  bs.map asciiUpperByte

/-- Mirrors `impl TryFrom<String> for CommandVerb`: uppercase the token and
match it against the verb names (as ASCII bytes). -/
def verbOf (bs : List Nat) : Option CommandVerb :=
  let up := asciiUpper bs
  if up = [80, 73, 78, 71] then some .PING
  else if up = [69, 67, 72, 79] then some .ECHO
  else if up = [83, 69, 84] then some .SET
  else if up = [71, 69, 84] then some .GET
  else if up = [84, 89, 80, 69] then some .TYPE
  else if up = [88, 65, 68, 68] then some .XADD
  else if up = [88, 82, 65, 78, 71, 69] then some .XRANGE
  else if up = [88, 82, 69, 65, 68] then some .XREAD
  else if up = [67, 79, 78, 70, 73, 71] then some .CONFIG
  else if up = [75, 69, 89, 83] then some .KEYS
  else if up = [73, 78, 70, 79] then some .INFO
  else if up = [82, 69, 80, 76, 67, 79, 78, 70] then some .REPLCONF
  else if up = [80, 83, 89, 78, 67] then some .PSYNC
  else if up = [87, 65, 73, 84] then some .WAIT
  else if up = [73, 78, 67, 82] then some .INCR
  else if up = [77, 85, 76, 84, 73] then some .MULTI
  else if up = [69, 88, 69, 67] then some .EXEC
  else if up = [68, 73, 83, 67, 65, 82, 68] then some .DISCARD
  else none

/-- Nat-level decoded command: mirrors `Command { verb, cmd }` with the
token list as byte runs. -/
structure BCommand where
  verb : CommandVerb
  cmd : List (List Nat)
deriving DecidableEq, Repr

/-- Mirrors `BufferType`: a decoded RESP frame. -/
inductive BufferType where
  | string (s : List Nat)
  | dbfile (bs : List Nat)
  | command (c : BCommand)
deriving DecidableEq, Repr

/-- Mirrors `find_until_next_delimiter`: bytes before the first CRLF, and
the bytes after it. The `tuple_windows` scan consumes the CRLF pair; with
no CRLF present it consumes the whole input and drops the final byte from
the collected run. -/
def find_until_next_delimiter : List Nat → List Nat × List Nat
  | [] => ([], [])
  | [_] => ([], [])
  | a :: b :: rest =>
    if a = 13 ∧ b = 10 then ([], rest)
    else
      let p := find_until_next_delimiter (b :: rest)
      (a :: p.1, p.2)

/-- Mirrors `parse_simple_string` (the bytes after a `+`): read to CRLF and
UTF-8 validate; on invalid UTF-8 no frame is produced. Returns the
remaining input and the optional frame. -/
def parse_simple_string (input : List Nat) : List Nat × Option BufferType :=
  let p := find_until_next_delimiter input
  if validUtf8 p.1 then (p.2, some (.string p.1)) else (p.2, none)

/-- Mirrors `parse_bulk_string_like` (the bytes after a `$`): read the
decimal length to CRLF, take that many payload bytes, then peek two bytes —
a CRLF is consumed and yields a `string` (UTF-8 validity required),
anything else yields a `dbfile` without consuming. -/
def parse_bulk_string_like (input : List Nat) : List Nat × Option BufferType :=
  let p := find_until_next_delimiter input
  match parse_rust_usize p.1 with
  | none => (p.2, none)
  | some len =>
    let bytes := p.2.take len
    let rest := p.2.drop len
    match rest with
    | 13 :: 10 :: rest2 =>
      if validUtf8 bytes then (rest2, some (.string bytes))
      else (rest2, none)
    | _ => (rest, some (.dbfile bytes))

/-- The element loop of `parse_array_into_command`: `len` times, skip one
byte (the unchecked `$`) and run the bulk parser, keeping only `string`
results. -/
def parse_array_elems : Nat → List Nat → List Nat × List (List Nat)
  | 0, input => (input, [])
  | n + 1, input =>
    let p := parse_bulk_string_like (input.drop 1)
    let q := parse_array_elems n p.1
    match p.2 with
    | some (.string s) => (q.1, s :: q.2)
    | _ => q

/-- Mirrors `parse_array_into_command` (the bytes after a `*`): read the
element count, collect the bulk-string elements, and look the first token
(or `""`) up in the verb table; an unknown verb drops the frame. -/
def parse_array_into_command (input : List Nat) : List Nat × Option BufferType :=
  let p := find_until_next_delimiter input
  match parse_rust_usize p.1 with
  | none => (p.2, none)
  | some len =>
    let q := parse_array_elems len p.2
    match verbOf (q.2.headD []) with
    | none => (q.1, none)
    | some verb => (q.1, some (.command ⟨verb, q.2⟩))

/-- Prepend an optionally produced frame. -/
def consOpt (item : Option BufferType) (items : List BufferType) : List BufferType :=
  match item with
  | some it => it :: items
  | none => items

theorem find_until_next_delimiter_length (l : List Nat) :
    (find_until_next_delimiter l).2.length ≤ l.length := by
  induction l with
  | nil => simp [find_until_next_delimiter]
  | cons a t ih =>
    match t with
    | [] => simp [find_until_next_delimiter]
    | b :: rest =>
      by_cases h : a = 13 ∧ b = 10
      · simp [find_until_next_delimiter, h]
        omega
      · simp only [find_until_next_delimiter, if_neg h]
        simp at ih ⊢
        omega

theorem parse_bulk_string_like_length (l : List Nat) :
    (parse_bulk_string_like l).1.length ≤ l.length := by
  unfold parse_bulk_string_like
  have hf := find_until_next_delimiter_length l
  rcases hp : parse_rust_usize (find_until_next_delimiter l).1 with _ | len
  · simp [hp]
    omega
  · simp only [hp]
    have hd : ((find_until_next_delimiter l).2.drop len).length ≤ l.length := by
      have := List.length_drop len (find_until_next_delimiter l).2
      omega
    rcases hr : (find_until_next_delimiter l).2.drop len with _ | ⟨b1, t1⟩
    · simp [hr]
    · rw [hr] at hd
      match b1, t1 with
      | 13, [] => simpa using hd
      | 13, 10 :: rest2 =>
        by_cases hv : validUtf8 ((find_until_next_delimiter l).2.take len) = true <;>
          simp [hv] <;> simp at hd <;> omega
      | 13, b2 :: rest2 =>
        by_cases h10 : b2 = 10
        · subst h10
          by_cases hv : validUtf8 ((find_until_next_delimiter l).2.take len) = true <;>
            simp [hv] <;> simp at hd <;> omega
        · simp [h10]
          simp at hd
          omega
      | b1, t1 =>
        by_cases h13 : b1 = 13
        · subst h13
          match t1 with
          | [] => simpa using hd
          | b2 :: rest2 =>
            by_cases h10 : b2 = 10
            · subst h10
              by_cases hv : validUtf8 ((find_until_next_delimiter l).2.take len) = true <;>
                simp [hv] <;> simp at hd <;> omega
            · simp [h10]
              simp at hd
              omega
        · simp [h13]
          simp at hd
          omega

theorem parse_array_elems_length (n : Nat) (l : List Nat) :
    (parse_array_elems n l).1.length ≤ l.length := by
  induction n generalizing l with
  | zero => simp [parse_array_elems]
  | succ m ih =>
    simp only [parse_array_elems]
    have h1 : (parse_bulk_string_like (l.drop 1)).1.length ≤ l.length := by
      have := parse_bulk_string_like_length (l.drop 1)
      have := List.length_drop 1 l
      omega
    have h2 := ih (parse_bulk_string_like (l.drop 1)).1
    rcases hp : (parse_bulk_string_like (l.drop 1)).2 with _ | it
    · simp only
      omega
    · rcases it with s | bs | c <;> simp only <;> omega

theorem parse_array_into_command_length (l : List Nat) :
    (parse_array_into_command l).1.length ≤ l.length := by
  unfold parse_array_into_command
  have hf := find_until_next_delimiter_length l
  dsimp only
  split
  · simpa using hf
  · rename_i len hp
    have he := parse_array_elems_length len (find_until_next_delimiter l).2
    split <;> dsimp only <;> omega

theorem parse_simple_string_length (l : List Nat) :
    (parse_simple_string l).1.length ≤ l.length := by
  unfold parse_simple_string
  have hf := find_until_next_delimiter_length l
  by_cases hv : validUtf8 (find_until_next_delimiter l).1 = true <;> simp [hv] <;> omega

/-- Mirrors the `parse_buffer` loop body: dispatch on the frame-start byte.
`+`, `$` and `*` run the matching sub-parser (a frame may be dropped, the
loop continues on the remaining bytes); any other byte hits the
`_ => panic!()` arm, modelled as `none`. -/
def parse_buffer_go (buffer : List Nat) : Option (List BufferType) :=
  match buffer with
  | [] => some []
  | b :: t =>
    if b = 43 then
      let p := parse_simple_string t
      (parse_buffer_go p.1).map (consOpt p.2)
    else if b = 36 then
      let p := parse_bulk_string_like t
      (parse_buffer_go p.1).map (consOpt p.2)
    else if b = 42 then
      let p := parse_array_into_command t
      (parse_buffer_go p.1).map (consOpt p.2)
    else none
termination_by buffer.length
decreasing_by
  all_goals
    (simp_wf;
     have h1 := parse_simple_string_length rest;
     have h2 := parse_bulk_string_like_length rest;
     have h3 := parse_array_into_command_length rest;
     omega)

/-- Mirrors `parse_buffer`; `none` models the decoder panicking. -/
def parse_buffer (buffer : List Nat) : Option (List BufferType) :=
  parse_buffer_go buffer

/-! ## RESP encoder, byte level (src/connection/fmt.rs) -/

/-- Mirrors `format_string(Some(v))` at byte level:
`$<len>\r\n<v>\r\n` with `len` the byte length. -/
def format_string_bytes (v : List Nat) : List Nat :=
  36 :: natToDecBytes v.length ++ [13, 10] ++ v ++ [13, 10]

/-- Mirrors `format_array` at byte level:
`*<n>\r\n` then each value as a bulk string. -/
def format_array_bytes (vs : List (List Nat)) : List Nat :=
  42 :: natToDecBytes vs.length ++ [13, 10] ++ (vs.map format_string_bytes).flatten

/-! ## RESP encoder, string level (src/connection/fmt.rs) -/

/-- CRLF terminator. -/
def crlfS : String := "\r\n"

/-- Mirrors `format_string`: `$<len>\r\n<v>\r\n` (`len` = UTF-8 byte length,
Rust `String::len`), or the null bulk `$-1\r\n`. -/
def format_string (v : Option String) : String :=
  match v with
  | some v => "$" ++ toString v.utf8ByteSize ++ crlfS ++ v ++ crlfS
  | none => "$-1\r\n"

/-- Mirrors `format_array`: `*<n>\r\n` then each value as a bulk string. -/
def format_array (vs : List String) : String :=
  "*" ++ toString vs.length ++ crlfS ++
    String.join (vs.map (fun v => format_string (some v)))

/-- Mirrors `format_stream_entry`: `*2\r\n<$id>\r\n<*flattened k/v array>`. -/
def format_stream_entry (e : StreamEntry) : String :=
  "*2" ++ crlfS ++ format_string (some (seidDisplay e.id)) ++
    format_array ((e.values.map (fun p => [p.1, p.2])).flatten)

/-- Mirrors `format_stream`: `*<n>\r\n` then each entry. -/
def format_stream (s : List StreamEntry) : String :=
  "*" ++ toString s.length ++ crlfS ++ String.join (s.map format_stream_entry)

/-! ## String-level commands, messages and configuration -/

/-- String-level decoded command, as the actors receive it:
mirrors `Command { verb, cmd }` with `cmd` the argv tokens. -/
structure Command where
  verb : CommandVerb
  cmd : List String
deriving DecidableEq, Repr

/-- Mirrors `ConnectionMessage` (src/actor/mod.rs): what an actor enqueues
on a connection's reply channel. -/
inductive ConnectionMessage where
  | SendString (s : String)
  | SendBytes (bs : List Nat)
deriving DecidableEq, Repr

/-- Mirrors `ReplicationRole` (src/config.rs usage). -/
inductive ReplicationRole where
  | Master
  | Replica (host : String) (port : Nat)
deriving DecidableEq, Repr

/-- Replication identity of the node (`config.replication`). -/
structure ReplicationConfig where
  role : ReplicationRole
  replid : String
  repl_offset : Nat
deriving DecidableEq, Repr

/-- The slice of `Config` the actors read: `get_arg` lookups, the port and
the replication identity. -/
structure Config where
  args : List (String × String)
  port : Nat
  replication : ReplicationConfig
deriving DecidableEq, Repr

/-- Mirrors `config.get_arg(key)`. -/
def configGetArg (c : Config) (k : String) : Option String :=
  (c.args.find? (fun p => p.1 = k)).map (·.2)

/-- Mirrors Rust `str::parse::<usize>()` on a `String` (used for `px`
values, WAIT counts and XREAD timeouts). -/
def parseUsizeS (s : String) : Option Nat :=
  parse_rust_usize (s.data.map Char.toNat)

/-! ## String-valued store operations (src/store/mod.rs and spec §4.2) -/

/-- Mirrors `Store::set_string`: overwrite with an optional absolute expiry
computed from the call-time clock. -/
def set_string (store : Store) (key value : String) (ttl : Option Nat)
    (now : Nat) : Store :=
  storeInsert store key ⟨ValueType.string value, ttl.map (fun s => now + s)⟩

/-- Mirrors `Store::get_string`: `none` when absent, expired
(`expiry < now`), or holding a non-string; expired entries are not
removed. -/
def get_string (store : Store) (key : String) (now : Nat) : Option String :=
  match storeGet store key with
  | none => none
  | some it =>
    match it.expiry with
    | some exp =>
      if exp < now then none
      else
        match it.value with
        | ValueType.string v => some v
        | _ => none
    | none =>
      match it.value with
      | ValueType.string v => some v
      | _ => none

/-- Mirrors `Store::get_keys`: all keys regardless of expiry. -/
def get_keys (store : Store) : List String :=
  store.map (·.1)

/-- Item kind, as the master's `get_item_type` reports it. -/
inductive ItemType where
  | String
  | Stream
deriving DecidableEq, Repr

/-- Modelled from the spec: `get_item_type(k) -> {none,string,stream}`,
honouring expiry for strings (spec §4.2; this Store iteration's
`get_item_type` body is not part of the snapshot). -/
def get_item_type (store : Store) (key : String) (now : Nat) :
    Option ItemType :=
  match storeGet store key with
  | none => none
  | some it =>
    match it.value with
    | ValueType.stream _ => some ItemType.Stream
    | ValueType.string _ =>
      match it.expiry with
      | some exp => if exp < now then none else some ItemType.String
      | none => some ItemType.String

/-- Modelled from the spec: `incr(k)` — absent (or expired) keys are set to
`1`; a present string parsing as a base-10 unsigned integer is incremented;
anything else fails (spec §4.2; the `incr` body is not part of the
snapshot). Returns the new value and the updated store. -/
def incr (store : Store) (key : String) (now : Nat) :
    Option Nat × Store :=
  match get_string store key now with
  | none =>
    match storeGet store key with
    | some ⟨ValueType.stream _, _⟩ => (none, store)
    | some ⟨ValueType.string _, some _⟩ =>
      (some 1, storeInsert store key ⟨ValueType.string "1", none⟩)
    | some ⟨ValueType.string _, none⟩ => (none, store)
    | none => (some 1, storeInsert store key ⟨ValueType.string "1", none⟩)
  | some v =>
    match parseUsizeS v with
    | none => (none, store)
    | some n =>
      (some (n + 1),
        storeInsert store key ⟨ValueType.string (toString (n + 1)), none⟩)

/-! ## Replica actor (src/actor/stores/replica.rs) -/

/-- Replica-actor state: its store and the replication offset
(`applied_bytes`). -/
structure ReplicaState where
  store : Store
  replication_offset : Nat
deriving DecidableEq, Repr

/-- Mirrors `ReplicaActor::process_echo`. -/
def replicaProcessEcho (cmd : List String) : List ConnectionMessage :=
  match cmd.get? 1 with
  | some m =>
    [.SendString ("$" ++ toString m.utf8ByteSize ++ crlfS ++ m ++ crlfS)]
  | none => []

/-- Mirrors `ReplicaActor::process_set`: parse `[px ms]`, mutate the store,
send nothing. -/
def replicaProcessSet (st : ReplicaState) (cmd : List String) (now : Nat) :
    ReplicaState :=
  match cmd.get? 1, cmd.get? 2 with
  | some key, some value =>
    let option_value := (cmd.get? 4).bind parseUsizeS
    let ttl :=
      match cmd.get? 3, option_value with
      | some o, some v => if o = "px" then some v else none
      | _, _ => none
    { st with store := set_string st.store key value ttl now }
  | _, _ => st

/-- Mirrors `ReplicaActor::process_config`. -/
def replicaProcessConfig (config : Config) (cmd : List String) :
    List ConnectionMessage :=
  match cmd.get? 1, cmd.get? 2 with
  | some action, some key =>
    if action = "GET" then
      match configGetArg config key with
      | some value =>
        [.SendString ("*2" ++ crlfS ++
          "$" ++ toString key.utf8ByteSize ++ crlfS ++ key ++ crlfS ++
          "$" ++ toString value.utf8ByteSize ++ crlfS ++ value ++ crlfS)]
      | none => []
    else []
  | _, _ => []

/-- Mirrors the `process_keys` reply: `*<n>\r\n` then each key. -/
def keysReply (keys : List String) : String :=
  "*" ++ toString keys.length ++ crlfS ++
    String.join (keys.map (fun k =>
      "$" ++ toString k.utf8ByteSize ++ crlfS ++ k ++ crlfS))

/-- Mirrors the `process_info` reply body for the `replication` section. -/
def infoReply (config : Config) : String :=
  let role :=
    match config.replication.role with
    | .Master => "master"
    | .Replica _ _ => "slave"
  "role:" ++ role ++ crlfS ++
    "master_replid:" ++ config.replication.replid ++ crlfS ++
    "master_repl_offset:" ++ toString config.replication.repl_offset ++ crlfS

/-- Mirrors `ReplicaActor::process_replconf`: `GETACK` answers
`REPLCONF ACK <applied_bytes>` computed at reply time; anything else
answers `+OK`. -/
def replicaProcessReplconf (st : ReplicaState) (cmd : List String) :
    List ConnectionMessage :=
  match cmd.get? 1 with
  | some o =>
    if o = "GETACK" then
      [.SendString (format_array
        ["REPLCONF", "ACK", toString st.replication_offset])]
    else [.SendString "+OK\r\n"]
  | none => [.SendString "+OK\r\n"]

/-- Mirrors `ReplicaActor::process_command`: dispatch on the verb;
unsupported verbs are logged and produce nothing; `INFO` with a section
other than `replication` panics (`none`). -/
def replicaProcessCommand (st : ReplicaState) (config : Config)
    (c : Command) (now : Nat) :
    Option (ReplicaState × List ConnectionMessage) :=
  match c.verb with
  | .ECHO => some (st, replicaProcessEcho c.cmd)
  | .SET => some (replicaProcessSet st c.cmd now, [])
  | .GET =>
    match c.cmd.get? 1 with
    | some key =>
      some (st, [.SendString (format_string (get_string st.store key now))])
    | none => some (st, [])
  | .CONFIG => some (st, replicaProcessConfig config c.cmd)
  | .KEYS => some (st, [.SendString (keysReply (get_keys st.store))])
  | .INFO =>
    match c.cmd.get? 1 with
    | some section_ =>
      if section_ = "replication" then
        some (st, [.SendString (format_string (some (infoReply config)))])
      else none
    | none => none
  | .REPLCONF => some (st, replicaProcessReplconf st c.cmd)
  | _ => some (st, [])

/-- Mirrors `ReplicaActor::track_replication_offset`: add the re-encoded
RESP-array byte length when the literal first argv token is `PING`, `SET`
or `REPLCONF` (case-sensitive comparison on the raw token, not on the
decoded verb). -/
def track_replication_offset (st : ReplicaState) (cmd : List String) :
    ReplicaState :=
  let n_bytes := (format_array cmd).utf8ByteSize
  match cmd.head? with
  | some c =>
    if c = "PING" ∨ c = "SET" ∨ c = "REPLCONF" then
      { st with replication_offset := st.replication_offset + n_bytes }
    else st
  | none => st

/-- The master-connection half of `ReplicaActor::poll`: process each
command, then track its bytes. -/
def replicaPollMaster (config : Config) (now : Nat) :
    ReplicaState → List Command →
    Option (ReplicaState × List ConnectionMessage)
  | st, [] => some (st, [])
  | st, c :: cs =>
    match replicaProcessCommand st config c now with
    | none => none
    | some (st1, msgs) =>
      let st2 := track_replication_offset st1 c.cmd
      match replicaPollMaster config now st2 cs with
      | none => none
      | some (stF, msgsRest) => some (stF, msgs ++ msgsRest)

/-- The local-client half of `ReplicaActor::poll`: process each command
with no offset tracking. -/
def replicaPollClients (config : Config) (now : Nat) :
    ReplicaState → List Command →
    Option (ReplicaState × List ConnectionMessage)
  | st, [] => some (st, [])
  | st, c :: cs =>
    match replicaProcessCommand st config c now with
    | none => none
    | some (st1, msgs) =>
      match replicaPollClients config now st1 cs with
      | none => none
      | some (stF, msgsRest) => some (stF, msgs ++ msgsRest)

/-- An argv whose literal first token is one the replica counts. -/
def trackedTokens (cmd : List String) : Bool :=
  match cmd.head? with
  | some t => decide (t = "PING" ∨ t = "SET" ∨ t = "REPLCONF")
  | none => false

/-- A command whose literal first token is one the replica counts. -/
def trackedCmd (c : Command) : Bool :=
  trackedTokens c.cmd

/-- The `REPLCONF GETACK *` command as propagated by the master. -/
def getackCommand : Command :=
  ⟨.REPLCONF, ["REPLCONF", "GETACK", "*"]⟩

/-! ## Master actor state (src/actor/master.rs) -/

/-- A reply channel: a connection's real channel, or the throwaway channel
`process_exec` creates to capture replies. -/
inductive Chan where
  | real (n : Nat)
  | dummy
deriving DecidableEq, Repr

/-- Mirrors `Replication { replication_offset, last_offset_checked }`. -/
structure Replication where
  replication_offset : Nat
  last_offset_checked : Nat
deriving DecidableEq, Repr

/-- Mirrors `WaitForReplicationAcks`; the timeout is an absolute instant. -/
structure WaitForReplicationAcks where
  initial_client_tx : Chan
  expected_number_of_acks : Nat
  number_of_acks : Nat
  timeout : Option Nat
deriving DecidableEq, Repr

/-- Mirrors `BlockingXREAD`. -/
structure BlockingXREAD where
  initial_client_tx : Chan
  streams : List String
  timeout : Option Nat
deriving DecidableEq, Repr

/-- Mirrors `Transaction`. -/
structure Transaction where
  client_tx : Chan
  commands : List Command
deriving DecidableEq, Repr

/-- Mirrors the `MasterActor` fields the dispatcher reads and writes. -/
structure MasterState where
  store : Store
  replication : Replication
  replicas : List Chan
  wait_for_replication_acks : Option WaitForReplicationAcks
  blocking_xreads : List BlockingXREAD
  transactions : List (String × Transaction)
deriving DecidableEq, Repr

/-- Ambient inputs of one dispatch: the configuration, the wall clock, and
the content of `empty.rdb` (`none` models `fs::read` failing). -/
structure Env where
  config : Config
  now : Nat
  rdb : Option (List Nat)
deriving DecidableEq, Repr

/-- Transaction lookup by connection id. -/
def transFind (ts : List (String × Transaction)) (k : String) :
    Option Transaction :=
  (ts.find? (fun p => p.1 = k)).map (·.2)

/-- Transaction removal (`swap_remove`; relative order of the survivors is
irrelevant — the map is never iterated — so plain removal is used). -/
def transRemove (ts : List (String × Transaction)) (k : String) :
    List (String × Transaction) :=
  ts.filter (fun p => ¬ p.1 = k)

/-- Transaction insert (`IndexMap::insert`): replace in place or append. -/
def transInsert : List (String × Transaction) → String → Transaction →
    List (String × Transaction)
  | [], k, t => [(k, t)]
  | (k', t') :: rest, k, t =>
    if k' = k then (k, t) :: rest else (k', t') :: transInsert rest k t

/-! ## Argument parsers (src/actor/master.rs) -/

/-- The effect of `arg.find("-")` + `split_at_checked` + `strip_prefix("-")`:
the text before the first `-` and the text after it. -/
def splitFirstDash (s : String) : Option (String × String) :=
  match s.data.findIdx? (fun ch => ch = '-') with
  | none => none
  | some i => some (⟨s.data.take i⟩, ⟨s.data.drop (i + 1)⟩)

/-- Mirrors `parse_requested_stream_entry_id`. -/
def parse_requested_stream_entry_id (arg : String) :
    Option RequestedStreamEntryId :=
  if arg = "*" then some .AutoGenerate
  else
    match splitFirstDash arg with
    | none => none
    | some (first, second) =>
      match parseUsizeS first with
      | none => none
      | some ts =>
        if second = "*" then some (.AutoGenerateSequence ts)
        else
          match parseUsizeS second with
          | none => none
          | some seq => some (.Explicit ⟨ts, seq⟩)

/-- Mirrors `parse_stream_entry_id` (`+`/`-` are the unbounded sentinels). -/
def parse_stream_entry_id (arg : String) : Option StreamEntryId :=
  if arg = "+" ∨ arg = "-" then none
  else
    match splitFirstDash arg with
    | none => none
    | some (first, second) =>
      match parseUsizeS first, parseUsizeS second with
      | some ts, some seq => some ⟨ts, seq⟩
      | _, _ => none

/-- Mirrors `XREADArguments`. -/
structure XREADArguments where
  streams : List (String × Option StreamEntryId)
  block_for : Option Nat
deriving DecidableEq, Repr

/-- Mirrors `parse_xread_arguments`: optional `block <ms>` prefix, the
`streams` keyword, then names and ids split at the midpoint. -/
def parse_xread_arguments (cmd : List String) : Option XREADArguments :=
  match cmd.drop 1 with
  | [] => none
  | o1 :: rest1 =>
    let cont : Option (String × List String × Option Nat) :=
      if o1 = "block" then
        let timeout := rest1.head?.bind parseUsizeS
        match rest1.drop 1 with
        | [] => none
        | o2 :: rest2 => some (o2, rest2, timeout)
      else some (o1, rest1, none)
    match cont with
    | none => none
    | some (o, rest, timeout) =>
      if o = "streams" then
        let midpoint := rest.length / 2
        let names := rest.take midpoint
        let ids := rest.drop midpoint
        some ⟨(names.zip ids).map (fun p => (p.1, parse_stream_entry_id p.2)),
          timeout⟩
      else none

/-- One overlapping-pair window (`tuple_windows::<(_, _)>()`). -/
def tupleWindowsPairs : List String → List (String × String)
  | a :: b :: rest => (a, b) :: tupleWindowsPairs (b :: rest)
  | _ => []

/-- `IndexMap::insert`: overwrite in place, or append. -/
def indexMapInsert (m : Values) (k v : String) : Values :=
  if m.any (fun p => p.1 = k) then
    m.map (fun p => if p.1 = k then (k, v) else p)
  else m ++ [(k, v)]

/-- Collecting pairs into an `IndexMap` (first position kept, last value
wins). -/
def collectIndexMap (ps : List (String × String)) : Values :=
  ps.foldl (fun m p => indexMapInsert m p.1 p.2) []

/-- The field pairs `XADD` builds from `command[3..]` — note the Rust code
collects *overlapping* `tuple_windows` pairs, not chunks. -/
def xaddEntries (cmd : List String) : Values :=
  collectIndexMap (tupleWindowsPairs (cmd.drop 3))

/-! ## Master actor command handlers (src/actor/master.rs) -/

/-- Outputs of one dispatch: messages tagged with their reply channel. -/
abbrev Out := List (Chan × ConnectionMessage)

/-- Mirrors `process_set`: set the key, reply `+OK`, grow
`replication_offset` by the summed argv byte lengths, and forward the argv
as a RESP array to every replica channel. -/
def masterProcessSet (st : MasterState) (cmd : List String) (tx : Chan)
    (now : Nat) : MasterState × Out :=
  match cmd.get? 1, cmd.get? 2 with
  | some key, some value =>
    let option_value := (cmd.get? 4).bind parseUsizeS
    let ttl :=
      match cmd.get? 3, option_value with
      | some o, some v => if o = "px" then some v else none
      | _, _ => none
    let newOffset := st.replication.replication_offset +
      (cmd.map (fun s => s.utf8ByteSize)).sum
    ({ st with
        store := set_string st.store key value ttl now,
        replication := { st.replication with replication_offset := newOffset } },
      (tx, .SendString "+OK\r\n") ::
        st.replicas.map (fun r => (r, .SendString (format_array cmd))))
  | _, _ => (st, [])

/-- Mirrors `propagate_xadd`: the single-stream notification sent to every
BlockingXREAD watching the key (the task list itself is not modified). -/
def propagate_xadd (st : MasterState) (stream_key : String)
    (entry_id : StreamEntryId) (entries : Values) : Out :=
  (st.blocking_xreads.filter
      (fun task => task.streams.contains stream_key)).map
    (fun task =>
      (task.initial_client_tx, .SendString
        ("*1" ++ crlfS ++ "*2" ++ crlfS ++
          format_string (some stream_key) ++
          format_stream [⟨entry_id, entries⟩])))

/-- Mirrors `process_xadd`: parse, append to the stream, reply the stored
id (or the error), and notify watching BlockingXREADs. -/
def masterProcessXadd (st : MasterState) (cmd : List String) (tx : Chan)
    (now : Nat) : Option (MasterState × Out) :=
  match cmd.get? 1 with
  | none => some (st, [])
  | some stream_key =>
    match (cmd.get? 2).bind parse_requested_stream_entry_id with
    | none => some (st, [])
    | some entry_id =>
      let entries := xaddEntries cmd
      match add_stream_entry st.store stream_key entry_id entries none now with
      | none => none
      | some (.ok id, store') =>
        some ({ st with store := store' },
          (tx, .SendString (format_string (some (seidDisplay id)))) ::
            propagate_xadd st stream_key id entries)
      | some (.error e, _) =>
        some (st,
          [(tx, .SendString ("-" ++ addStreamEntryErrorMessage e ++ crlfS))])

/-- Mirrors `process_xread`: assemble the per-stream ranges (start bound
inclusive, no end bound); with `block` present, register a BlockingXREAD
and do not reply, else reply the assembled array. -/
def masterProcessXread (st : MasterState) (cmd : List String) (tx : Chan)
    (now : Nat) : MasterState × Out :=
  match parse_xread_arguments cmd with
  | none => (st, [])
  | some args =>
    let message := "*" ++ toString args.streams.length ++ crlfS ++
      String.join (args.streams.map (fun p =>
        "*2" ++ crlfS ++ format_string (some p.1) ++
          format_stream (get_stream_range st.store p.1 p.2 none)))
    match args.block_for with
    | some block_for =>
      let timeout := if block_for > 0 then some (now + block_for) else none
      ({ st with blocking_xreads := st.blocking_xreads ++
          [⟨tx, args.streams.map (·.1), timeout⟩] }, [])
    | none => (st, [(tx, .SendString message)])

/-- Mirrors `process_wait`: `0` acks short-circuits to `:0`; an unchanged
checkpoint short-circuits to the replica count; otherwise fan out
`REPLCONF GETACK *` and install the deferred-reply task. -/
def masterProcessWait (st : MasterState) (cmd : List String) (tx : Chan)
    (now : Nat) : MasterState × Out :=
  match (cmd.get? 1).bind parseUsizeS with
  | none => (st, [])
  | some expected =>
    if expected = 0 then (st, [(tx, .SendString (":0" ++ crlfS))])
    else if st.replication.last_offset_checked =
        st.replication.replication_offset then
      (st, [(tx, .SendString
        (":" ++ toString st.replicas.length ++ crlfS))])
    else
      let timeout := ((cmd.get? 2).bind parseUsizeS).map (fun ms => now + ms)
      ({ st with wait_for_replication_acks := some ⟨tx, expected, 0, timeout⟩ },
        st.replicas.map (fun r =>
          (r, .SendString (format_array ["REPLCONF", "GETACK", "*"]))))

/-- Mirrors `process_replconf` on the master: `ACK` bumps the active WAIT
task (no reply); everything else answers `+OK`. -/
def masterProcessReplconf (st : MasterState) (cmd : List String) (tx : Chan) :
    MasterState × Out :=
  match cmd.get? 1 with
  | some o =>
    if o = "ACK" then
      match st.wait_for_replication_acks with
      | some task =>
        ({ st with wait_for_replication_acks := some { task with number_of_acks := task.number_of_acks + 1 } }, [])
      | none => (st, [])
    else (st, [(tx, .SendString "+OK\r\n")])
  | none => (st, [(tx, .SendString "+OK\r\n")])

/-- Mirrors `process_psync`: the `+FULLRESYNC` line (wrapped as a bulk
string by `format_string`), then — when `empty.rdb` reads — the length
header, the raw bytes, and registration of the reply channel as a
replica. -/
def masterProcessPsync (st : MasterState) (tx : Chan) (env : Env) :
    MasterState × Out :=
  let hello := (tx, ConnectionMessage.SendString (format_string (some
    ("+FULLRESYNC " ++ env.config.replication.replid ++ " " ++
      toString env.config.replication.repl_offset))))
  match env.rdb with
  | none => (st, [hello])
  | some empty_db =>
    ({ st with replicas := st.replicas ++ [tx] },
      [hello,
        (tx, .SendString ("$" ++ toString empty_db.length ++ crlfS)),
        (tx, .SendBytes empty_db)])

/-- Mirrors `process_simple_command`: the per-verb dispatch (the
transaction gate lives in `process_command`). `INFO` with a section other
than `replication` panics; `XADD` on an ill-formed stream panics inside
the store. -/
def masterProcessSimple (env : Env) (st : MasterState) (c : Command)
    (tx : Chan) (conn : String) : Option (MasterState × Out) :=
  match c.verb with
  | .PING => some (st, [(tx, .SendString "+PONG\r\n")])
  | .ECHO =>
    match c.cmd.get? 1 with
    | some m =>
      some (st, [(tx, .SendString
        ("$" ++ toString m.utf8ByteSize ++ crlfS ++ m ++ crlfS))])
    | none => some (st, [])
  | .SET => some (masterProcessSet st c.cmd tx env.now)
  | .GET =>
    match c.cmd.get? 1 with
    | some key =>
      some (st, [(tx, .SendString
        (format_string (get_string st.store key env.now)))])
    | none => some (st, [])
  | .INCR =>
    match c.cmd.get? 1 with
    | none => some (st, [])
    | some key =>
      match incr st.store key env.now with
      | (none, store') =>
        some ({ st with store := store' },
          [(tx, .SendString
            "-ERR value is not an integer or out of range\r\n")])
      | (some n, store') =>
        some ({ st with store := store' },
          [(tx, .SendString (":" ++ toString n ++ crlfS))])
  | .MULTI =>
    some ({ st with transactions := transInsert st.transactions conn ⟨tx, []⟩ },
      [(tx, .SendString "+OK\r\n")])
  | .DISCARD => some (st, [(tx, .SendString "-ERR DISCARD without MULTI\r\n")])
  | .EXEC => some (st, [(tx, .SendString "-ERR EXEC without MULTI\r\n")])
  | .TYPE =>
    match c.cmd.get? 1 with
    | none => some (st, [])
    | some key =>
      let response :=
        match get_item_type st.store key env.now with
        | none => "+none\r\n"
        | some ItemType.String => "+string\r\n"
        | some ItemType.Stream => "+stream\r\n"
      some (st, [(tx, .SendString response)])
  | .XADD => masterProcessXadd st c.cmd tx env.now
  | .XRANGE =>
    match c.cmd.get? 1 with
    | none => some (st, [])
    | some stream_key =>
      let start_id := (c.cmd.get? 2).bind parse_stream_entry_id
      let end_id := (c.cmd.get? 3).bind parse_stream_entry_id
      some (st, [(tx, .SendString
        (format_stream (get_stream_range st.store stream_key start_id end_id)))])
  | .XREAD => some (masterProcessXread st c.cmd tx env.now)
  | .CONFIG => some (st, (replicaProcessConfig env.config c.cmd).map (tx, ·))
  | .KEYS => some (st, [(tx, .SendString (keysReply (get_keys st.store)))])
  | .INFO =>
    match c.cmd.get? 1 with
    | some section_ =>
      if section_ = "replication" then
        some (st, [(tx, .SendString (format_string (some (infoReply env.config))))])
      else none
    | none => none
  | .REPLCONF => some (masterProcessReplconf st c.cmd tx)
  | .PSYNC => some (masterProcessPsync st tx env)
  | .WAIT => some (masterProcessWait st c.cmd tx env.now)

/-- The `process_exec` loop: run each queued command against the dummy
channel, keep a queue of its dummy-channel replies, and `recv` one reply
per command. An empty queue at `recv` time models the actor blocking
forever (`none`); a `SendBytes` reply aborts with the external messages
sent so far and no client reply (`true` flag). -/
def execLoop (env : Env) (conn : String) :
    MasterState → List Command → List ConnectionMessage →
    Option (MasterState × Out × String × Bool)
  | st, [], _ => some (st, [], "", false)
  | st, c :: cs, pending =>
    match masterProcessSimple env st c Chan.dummy conn with
    | none => none
    | some (st1, out) =>
      let dummyMsgs := (out.filter (fun m => m.1 = Chan.dummy)).map (·.2)
      let ext := out.filter (fun m => ¬ m.1 = Chan.dummy)
      match pending ++ dummyMsgs with
      | [] => none
      | m :: qrest =>
        match m with
        | .SendBytes _ => some (st1, ext, "", true)
        | .SendString r =>
          match execLoop env conn st1 cs qrest with
          | none => none
          | some (stF, extRest, msgRest, ab) =>
            some (stF, ext ++ extRest, r ++ msgRest, ab)

/-- Mirrors `process_exec`: `*<n>\r\n` plus the captured replies, sent to
the transaction's stored channel; external messages (e.g. replica
propagation) flow out as produced. -/
def process_exec (env : Env) (st : MasterState) (t : Transaction)
    (conn : String) : Option (MasterState × Out) :=
  match execLoop env conn st t.commands [] with
  | none => none
  | some (stF, ext, msg, aborted) =>
    if aborted then some (stF, ext)
    else
      some ({ stF with transactions := transRemove stF.transactions conn },
        ext ++ [(t.client_tx, .SendString
          ("*" ++ toString t.commands.length ++ crlfS ++ msg))])

/-- Mirrors `process_command`: the transaction gate — `EXEC` runs the
queue, `DISCARD` drops it with `+OK`, anything else is queued with
`+QUEUED`; with no open transaction, dispatch by verb. -/
def process_command (env : Env) (st : MasterState) (c : Command) (tx : Chan)
    (conn : String) : Option (MasterState × Out) :=
  match transFind st.transactions conn with
  | some t =>
    let st' := { st with transactions := transRemove st.transactions conn }
    if c.verb = .EXEC then process_exec env st' t conn
    else if c.verb = .DISCARD then some (st', [(tx, .SendString "+OK\r\n")])
    else
      some ({ st' with transactions := transInsert st'.transactions conn ({ t with commands := t.commands ++ [c] }) },
        [(tx, .SendString "+QUEUED\r\n")])
  | none => masterProcessSimple env st c tx conn

/-- Mirrors `check_on_replication_waits`: an elapsed deadline, or enough
acks, replies `:<received>`, checkpoints the offset and clears the task. -/
def check_on_replication_waits (st : MasterState) (now : Nat) :
    MasterState × Out :=
  match st.wait_for_replication_acks with
  | none => (st, [])
  | some task =>
    let resolve : MasterState × Out :=
      ({ st with
          replication := { st.replication with
            last_offset_checked := st.replication.replication_offset },
          wait_for_replication_acks := none },
        [(task.initial_client_tx, .SendString
          (":" ++ toString task.number_of_acks ++ crlfS))])
    match task.timeout with
    | some tmo =>
      if tmo ≤ now then resolve
      else if task.expected_number_of_acks ≤ task.number_of_acks then resolve
      else (st, [])
    | none =>
      if task.expected_number_of_acks ≤ task.number_of_acks then resolve
      else (st, [])

/-- Mirrors `check_on_blocking_xreads`: tasks whose deadline has passed are
answered `$-1\r\n` and dropped; the rest are retained in order. -/
def check_on_blocking_xreads (st : MasterState) (now : Nat) :
    MasterState × Out :=
  let expired : BlockingXREAD → Bool := fun t =>
    match t.timeout with
    | some tmo => decide (tmo ≤ now)
    | none => false
  ({ st with blocking_xreads :=
      st.blocking_xreads.filter (fun t => ¬ expired t) },
    (st.blocking_xreads.filter expired).map
      (fun t => (t.initial_client_tx, .SendString "$-1\r\n")))

/-- The clean-execution reference for `EXEC`: each queued command, run
against the store exactly as a standalone command (same
`masterProcessSimple`), produces exactly one string reply on the capture
channel; collects the final state, the external messages and the reply of
each command. -/
def cleanRun (env : Env) (conn : String) :
    MasterState → List Command →
    Option (MasterState × Out × List String)
  | st, [] => some (st, [], [])
  | st, c :: cs =>
    match masterProcessSimple env st c Chan.dummy conn with
    | none => none
    | some (st1, out) =>
      match (out.filter (fun m => m.1 = Chan.dummy)).map (fun m => m.2) with
      | [ConnectionMessage.SendString r] =>
        match cleanRun env conn st1 cs with
        | none => none
        | some (stF, ext, rs) =>
          some (stF, (out.filter (fun m => ¬ m.1 = Chan.dummy)) ++ ext, r :: rs)
      | _ => none

/-! ## Concrete instances used by witnesses and counterexamples -/

/-- A minimal master-side environment: empty config, clock at 100 ms, no
`empty.rdb`. -/
def envW : Env := ⟨⟨[], 6379, ⟨.Master, "", 0⟩⟩, 100, none⟩

/-- A state holding one open transaction for connection `"c"` with queued
`SET k 1` and `INCR k` (the spec's §8 transaction scenario). -/
def stTx : MasterState :=
  ⟨[], ⟨0, 0⟩, [], none, [],
    [("c", ⟨Chan.real 1,
      [⟨.SET, ["SET", "k", "1"]⟩, ⟨.INCR, ["INCR", "k"]⟩]⟩)]⟩

/-- A state holding one open transaction whose queue contains an
argument-less `GET`, which produces no reply when executed. -/
def stTxStuck : MasterState :=
  ⟨[], ⟨0, 0⟩, [], none, [],
    [("c", ⟨Chan.real 1, [⟨.GET, ["GET"]⟩]⟩)]⟩

/-- A state with one registered BlockingXREAD watching stream `"s"` with
deadline 500. -/
def stBx : MasterState :=
  ⟨[], ⟨0, 0⟩, [], none, [⟨Chan.real 9, ["s"], some 500⟩], []⟩

/-- A state with one replica channel and unpropagated writes
(`replication_offset = 10`, `last_offset_checked = 0`). -/
def stWait : MasterState :=
  ⟨[], ⟨10, 0⟩, [Chan.real 7], none, [], []⟩

/-! ## Lemmas on the id order -/

theorem seidLt_iff (a b : StreamEntryId) :
    seidLt a b = true ↔
      a.timestamp < b.timestamp ∨
        (a.timestamp = b.timestamp ∧ a.sequence_number < b.sequence_number) := by
  unfold seidLt seidCmp
  rcases ht : compare a.timestamp b.timestamp with _ | _ | _ <;>
    rcases hs : compare a.sequence_number b.sequence_number with _ | _ | _ <;>
    simp only [Nat.compare_eq_lt, Nat.compare_eq_eq, Nat.compare_eq_gt] at ht hs <;>
    simp <;> omega

theorem seidLe_iff (a b : StreamEntryId) :
    seidLe a b = true ↔
      a.timestamp < b.timestamp ∨
        (a.timestamp = b.timestamp ∧ a.sequence_number ≤ b.sequence_number) := by
  unfold seidLe seidCmp
  rcases ht : compare a.timestamp b.timestamp with _ | _ | _ <;>
    rcases hs : compare a.sequence_number b.sequence_number with _ | _ | _ <;>
    simp only [Nat.compare_eq_lt, Nat.compare_eq_eq, Nat.compare_eq_gt] at ht hs <;>
    simp <;> omega

theorem seidLt_of_not_le {a b : StreamEntryId} (h : ¬ seidLe a b = true) :
    seidLt b a = true := by
  rw [seidLe_iff] at h
  rw [seidLt_iff]
  omega

/-! ## Lemmas on the keyed store -/

theorem storeGet_insert (st : Store) (k : String) (it : Item) (k' : String) :
    storeGet (storeInsert st k it) k' =
      if k = k' then some it else storeGet st k' := by
  induction st with
  | nil =>
    by_cases h : k = k' <;> simp [storeInsert, storeGet, h]
  | cons hd tl ih =>
    obtain ⟨k₀, it₀⟩ := hd
    by_cases h0 : k₀ = k
    · subst h0
      by_cases h : k₀ = k' <;> simp [storeInsert, storeGet, h]
    · by_cases h : k₀ = k'
      · subst h
        have hkk : ¬ (k = k₀) := fun hh => h0 hh.symm
        simp [storeInsert, storeGet, h0, hkk]
      · simp [storeInsert, storeGet, h0, h, ih]

theorem storeGet_setStream (st : Store) (k : String) (s : List StreamEntry)
    (k' : String) :
    storeGet (storeSetStream st k s) k' =
      if k = k' then
        (storeGet st k).map fun it => { it with value := ValueType.stream s }
      else storeGet st k' := by
  induction st with
  | nil =>
    by_cases h : k = k' <;> simp [storeSetStream, storeGet, h]
  | cons hd tl ih =>
    obtain ⟨k₀, it₀⟩ := hd
    by_cases h0 : k₀ = k
    · subst h0
      by_cases h : k₀ = k' <;> simp [storeSetStream, storeGet, h]
    · by_cases h : k₀ = k'
      · subst h
        have hkk : ¬ (k = k₀) := fun hh => h0 hh.symm
        simp [storeSetStream, storeGet, h0, hkk]
      · simp [storeSetStream, storeGet, h0, h, ih]

/-- The new id produced by a successful append is strictly above the last id
of the stream appended to. -/
theorem append_new_id_gt (existing : List StreamEntry)
    (idr : RequestedStreamEntryId) (entry : Values) (now : Nat)
    (last_entry : StreamEntry) (id : StreamEntryId) (ns : List StreamEntry)
    (hlast : existing.getLast? = some last_entry)
    (h : append_to_existing_stream existing idr entry now =
      some (.ok (id, ns))) :
    seidLt last_entry.id id = true ∧ ns = existing ++ [⟨id, entry⟩] := by
  unfold append_to_existing_stream at h
  rw [hlast] at h
  rcases idr with eid | ts | _
  · by_cases h00 : eid = (⟨0, 0⟩ : StreamEntryId)
    · simp [h00, Except.map] at h
    · by_cases hle : seidLe eid last_entry.id = true
      · simp [h00, hle, Except.map] at h
      · simp [h00, hle, Except.map] at h
        obtain ⟨h1, h2⟩ := h
        subst h1
        exact ⟨seidLt_of_not_le hle, h2.symm⟩
  · rcases hc : compare ts last_entry.id.timestamp with _ | _ | _ <;>
      simp only [hc, Except.map, Option.some.injEq, Except.ok.injEq,
        Prod.mk.injEq, reduceCtorEq] at h <;>
      simp only [Nat.compare_eq_lt, Nat.compare_eq_eq, Nat.compare_eq_gt] at hc
    · obtain ⟨h1, h2⟩ := h
      subst h1
      refine ⟨?_, h2.symm⟩
      rw [seidLt_iff]; simp; omega
    · obtain ⟨h1, h2⟩ := h
      subst h1
      refine ⟨?_, h2.symm⟩
      rw [seidLt_iff]; simp; omega
  · rcases hc : compare now last_entry.id.timestamp with _ | _ | _ <;>
      simp only [hc, Except.map, Option.some.injEq, Except.ok.injEq,
        Prod.mk.injEq] at h <;>
      simp only [Nat.compare_eq_lt, Nat.compare_eq_eq, Nat.compare_eq_gt] at hc <;>
      obtain ⟨h1, h2⟩ := h <;> subst h1 <;>
      refine ⟨?_, h2.symm⟩ <;> rw [seidLt_iff] <;> simp <;> omega

/-- Appending one entry whose id is above the current last id keeps a
well-formed stream well-formed. -/
theorem streamWF_append (s : List StreamEntry) (e : StreamEntry)
    (last_entry : StreamEntry) (hlast : s.getLast? = some last_entry)
    (hwf : StreamWF s) (hgt : seidLt last_entry.id e.id = true) :
    StreamWF (s ++ [e]) := by
  obtain ⟨hne, hchain⟩ := hwf
  refine ⟨by simp, ?_⟩
  rw [List.chain'_append]
  refine ⟨hchain, List.chain'_singleton e, ?_⟩
  intro x hx y hy
  rw [hlast] at hx
  simp at hx hy
  subst hx; subst hy
  exact hgt

/-- C1. For every stream value in the store, consecutive entries have
strictly increasing ids (lexicographic on (timestamp, sequence)); every
successful `add_stream_entry` — in all three request forms, including the
`AutoGenerate` wall-clock-regression branch — preserves this well-formedness
invariant. -/
theorem add_stream_entry_preserves_wf (store : Store) (key : String)
    (idr : RequestedStreamEntryId) (entry : Values) (ttl : Option Nat)
    (now : Nat) (id : StreamEntryId) (store' : Store)
    (hwf : StoreWF store)
    (h : add_stream_entry store key idr entry ttl now = some (.ok id, store')) :
    StoreWF store' := by
  unfold add_stream_entry at h
  rcases hget : storeGet store key with _ | it
  · -- absent key: fresh stream
    rw [hget] at h
    simp only [create_new_stream] at h
    rcases idr with eid | ts | _
    · by_cases h00 : eid = (⟨0, 0⟩ : StreamEntryId)
      · simp [h00] at h
      · simp [h00] at h
        obtain ⟨h1, h2⟩ := h
        subst h1
        intro k' it' hk' s' hs'
        rw [← h2, storeGet_insert] at hk'
        by_cases hk : key = k'
        · simp [hk] at hk'
          rw [← hk'] at hs'
          simp at hs'
          rw [← hs']
          exact ⟨by simp, List.chain'_singleton _⟩
        · simp [hk] at hk'
          exact hwf k' it' hk' s' hs'
    · simp at h
      obtain ⟨h1, h2⟩ := h
      intro k' it' hk' s' hs'
      rw [← h2, storeGet_insert] at hk'
      by_cases hk : key = k'
      · simp [hk] at hk'
        rw [← hk'] at hs'
        simp at hs'
        rw [← hs']
        exact ⟨by simp, List.chain'_singleton _⟩
      · simp [hk] at hk'
        exact hwf k' it' hk' s' hs'
    · simp at h
      obtain ⟨h1, h2⟩ := h
      intro k' it' hk' s' hs'
      rw [← h2, storeGet_insert] at hk'
      by_cases hk : key = k'
      · simp [hk] at hk'
        rw [← hk'] at hs'
        simp at hs'
        rw [← hs']
        exact ⟨by simp, List.chain'_singleton _⟩
      · simp [hk] at hk'
        exact hwf k' it' hk' s' hs'
  · rcases hval : it.value with v | existing
    · -- key holds a string: fresh stream overwrites it
      rw [hget] at h
      obtain ⟨vv, ev⟩ := it
      simp at hval
      subst hval
      simp only [create_new_stream] at h
      rcases idr with eid | ts | _
      · by_cases h00 : eid = (⟨0, 0⟩ : StreamEntryId)
        · simp [h00] at h
        · simp [h00] at h
          obtain ⟨h1, h2⟩ := h
          subst h1
          intro k' it' hk' s' hs'
          rw [← h2, storeGet_insert] at hk'
          by_cases hk : key = k'
          · simp [hk] at hk'
            rw [← hk'] at hs'
            simp at hs'
            rw [← hs']
            exact ⟨by simp, List.chain'_singleton _⟩
          · simp [hk] at hk'
            exact hwf k' it' hk' s' hs'
      · simp at h
        obtain ⟨h1, h2⟩ := h
        intro k' it' hk' s' hs'
        rw [← h2, storeGet_insert] at hk'
        by_cases hk : key = k'
        · simp [hk] at hk'
          rw [← hk'] at hs'
          simp at hs'
          rw [← hs']
          exact ⟨by simp, List.chain'_singleton _⟩
        · simp [hk] at hk'
          exact hwf k' it' hk' s' hs'
      · simp at h
        obtain ⟨h1, h2⟩ := h
        intro k' it' hk' s' hs'
        rw [← h2, storeGet_insert] at hk'
        by_cases hk : key = k'
        · simp [hk] at hk'
          rw [← hk'] at hs'
          simp at hs'
          rw [← hs']
          exact ⟨by simp, List.chain'_singleton _⟩
        · simp [hk] at hk'
          exact hwf k' it' hk' s' hs'
    · -- existing stream: append
      obtain ⟨vv, ev⟩ := it
      simp at hval
      subst hval
      rw [hget] at h
      rcases happ : append_to_existing_stream existing idr entry now with _ | res
      · simp [happ] at h
      rcases res with e | p
      · simp [happ] at h
      obtain ⟨id', ns⟩ := p
      simp [happ] at h
      obtain ⟨h1, h2⟩ := h
      subst h1
      have hwfs : StreamWF existing := by
        exact hwf key ⟨ValueType.stream existing, ev⟩ hget existing rfl
      obtain ⟨hne, _⟩ := hwfs
      rcases hlast : existing.getLast? with _ | last_entry
      · rw [List.getLast?_eq_none_iff] at hlast
        exact absurd hlast hne
      obtain ⟨hgt, hns⟩ := append_new_id_gt existing idr entry now last_entry id' ns hlast happ
      intro k' it' hk' s' hs'
      rw [← h2, storeGet_setStream] at hk'
      by_cases hk : key = k'
      · simp [hk] at hk'
        rw [← hk] at hk'
        rw [hget] at hk'
        simp at hk'
        rw [← hk'] at hs'
        simp at hs'
        rw [← hs', hns]
        exact streamWF_append existing ⟨id', entry⟩ last_entry hlast
          (hwf key ⟨ValueType.stream existing, ev⟩ hget existing rfl) hgt
      · simp [hk] at hk'
        exact hwf k' it' hk' s' hs'

/-- The empty store is well-formed. -/
theorem storeWF_nil : StoreWF ([] : Store) := by
  intro k it h s hs
  simp [storeGet] at h

/-- A store holding one well-formed stream is well-formed. -/
theorem storeWF_singleton (k : String) (s : List StreamEntry) (ex : Option Nat)
    (h : StreamWF s) : StoreWF [(k, ⟨ValueType.stream s, ex⟩)] := by
  intro k' it h' s' hs'
  by_cases hk : k = k'
  · simp [storeGet, hk] at h'
    rw [← h'] at hs'
    simp at hs'
    rw [← hs']
    exact h
  · simp [storeGet, hk] at h'

/-- Witness for C1 at a concrete input: adding `1-2` after `1-1`. -/
theorem add_stream_entry_preserves_wf_witness :
    StoreWF [("s", ⟨ValueType.stream
      [⟨⟨1, 1⟩, [("a", "1")]⟩, ⟨⟨1, 2⟩, [("b", "2")]⟩], none⟩)] :=
  add_stream_entry_preserves_wf
    [("s", ⟨ValueType.stream [⟨⟨1, 1⟩, [("a", "1")]⟩], none⟩)] "s"
    (.Explicit ⟨1, 2⟩) [("b", "2")] none 5 ⟨1, 2⟩ _
    (storeWF_singleton "s" [⟨⟨1, 1⟩, [("a", "1")]⟩] none
      ⟨by simp, List.chain'_singleton _⟩)
    (by rfl)

/-- C2. `add_stream_entry` with an `Explicit(id)` request fails with exactly
`ERR The ID specified in XADD must be greater than 0-0` when `id = (0,0)`;
when appending to an existing stream it fails with exactly
`ERR The ID specified in XADD is equal or smaller than the target stream top
item` when `id ≤ last_id`; every failure returns the store unchanged, and on
success the entry `{id, fields}` is appended (or a fresh one-entry stream is
created) and `id` is returned. -/
theorem xadd_explicit_contract (store : Store) (key : String) (entry : Values)
    (ttl : Option Nat) (now : Nat) (id : StreamEntryId)
    (hwf : StoreWF store) :
    (id = ⟨0, 0⟩ →
      add_stream_entry store key (.Explicit id) entry ttl now =
        some (.error .GreaterThanZeroZero, store)) ∧
    (∀ existing ex last_entry,
      storeGet store key = some ⟨ValueType.stream existing, ex⟩ →
      existing.getLast? = some last_entry →
      (id ≠ ⟨0, 0⟩ → seidLe id last_entry.id = true →
        add_stream_entry store key (.Explicit id) entry ttl now =
          some (.error .EqualOrSmallerID, store)) ∧
      (id ≠ ⟨0, 0⟩ → seidLe id last_entry.id = false →
        add_stream_entry store key (.Explicit id) entry ttl now =
          some (.ok id, storeSetStream store key (existing ++ [⟨id, entry⟩])))) ∧
    ((∀ it, storeGet store key = some it →
        (∀ s, it.value ≠ ValueType.stream s)) ∨ storeGet store key = none →
      id ≠ ⟨0, 0⟩ →
      add_stream_entry store key (.Explicit id) entry ttl now =
        some (.ok id,
          storeInsert store key
            ⟨ValueType.stream [⟨id, entry⟩], ttl.map (fun s => now + s)⟩)) ∧
    (addStreamEntryErrorMessage .GreaterThanZeroZero =
      "ERR The ID specified in XADD must be greater than 0-0" ∧
     addStreamEntryErrorMessage .EqualOrSmallerID =
      "ERR The ID specified in XADD is equal or smaller than the target stream top item") := by
  refine ⟨?_, ?_, ?_, rfl, rfl⟩
  · intro h00
    subst h00
    unfold add_stream_entry
    rcases hget : storeGet store key with _ | it
    · simp [create_new_stream]
    · rcases hval : it.value with v | existing
      · obtain ⟨vv, ev⟩ := it
        simp at hval
        subst hval
        simp [create_new_stream]
      · obtain ⟨vv, ev⟩ := it
        simp at hval
        subst hval
        have hwfs := hwf key ⟨ValueType.stream existing, ev⟩ hget existing rfl
        obtain ⟨hne, _⟩ := hwfs
        rcases hlast : existing.getLast? with _ | last_entry
        · rw [List.getLast?_eq_none_iff] at hlast
          exact absurd hlast hne
        · simp [append_to_existing_stream, hlast, Except.map]
  · intro existing ex last_entry hget hlast
    constructor
    · intro h00 hle
      unfold add_stream_entry
      rw [hget]
      simp [append_to_existing_stream, hlast, h00, hle, Except.map]
    · intro h00 hle
      unfold add_stream_entry
      rw [hget]
      simp [append_to_existing_stream, hlast, h00, hle, Except.map]
  · intro hns h00
    unfold add_stream_entry
    rcases hget : storeGet store key with _ | it
    · simp [create_new_stream, h00]
    · rcases hval : it.value with v | existing
      · obtain ⟨vv, ev⟩ := it
        simp at hval
        subst hval
        simp [create_new_stream, h00]
      · rcases hns with hns | hns
        · exact absurd hval (by simpa using hns it hget existing)
        · rw [hns] at hget
          exact absurd hget (by simp)

/-- Witness for C2 at a concrete input: appending `1-1` onto a stream whose
last id is already `1-1` fails and leaves the store unchanged. -/
theorem xadd_explicit_contract_witness :
    add_stream_entry
      [("s", ⟨ValueType.stream [⟨⟨1, 1⟩, [("a", "1")]⟩], none⟩)] "s"
      (.Explicit ⟨1, 1⟩) [("a", "2")] none 7 =
      some (.error .EqualOrSmallerID,
        [("s", ⟨ValueType.stream [⟨⟨1, 1⟩, [("a", "1")]⟩], none⟩)]) :=
  ((xadd_explicit_contract
      [("s", ⟨ValueType.stream [⟨⟨1, 1⟩, [("a", "1")]⟩], none⟩)] "s"
      [("a", "2")] none 7 ⟨1, 1⟩
      (storeWF_singleton "s" [⟨⟨1, 1⟩, [("a", "1")]⟩] none
        ⟨by simp, List.chain'_singleton _⟩)).2.1
    [⟨⟨1, 1⟩, [("a", "1")]⟩] none ⟨⟨1, 1⟩, [("a", "1")]⟩
    (by rfl) (by rfl)).1 (by decide) (by decide)

/-- C7. `get_stream_range` (the function `XREAD` gathers entries with, the
start bound being the requested id and the end bound `None`) keeps exactly
the entries between the bounds with inclusive comparisons on both ends
(`start ≤ id` uses `≤`, not `<`), a `None` bound is unbounded, order is
preserved, and an absent or non-stream key yields the empty list. -/
theorem get_stream_range_inclusive (store : Store) (key : String) :
    (∀ s ex start stop e,
      storeGet store key = some ⟨ValueType.stream s, ex⟩ →
      (e ∈ get_stream_range store key start stop ↔
        e ∈ s ∧
        (∀ a, start = some a →
          a.timestamp < e.id.timestamp ∨
            (a.timestamp = e.id.timestamp ∧
              a.sequence_number ≤ e.id.sequence_number)) ∧
        (∀ b, stop = some b →
          e.id.timestamp < b.timestamp ∨
            (e.id.timestamp = b.timestamp ∧
              e.id.sequence_number ≤ b.sequence_number)))) ∧
    (∀ s ex start stop,
      storeGet store key = some ⟨ValueType.stream s, ex⟩ →
      (get_stream_range store key start stop).Sublist s) ∧
    (storeGet store key = none →
      ∀ start stop, get_stream_range store key start stop = []) ∧
    (∀ v ex, storeGet store key = some ⟨ValueType.string v, ex⟩ →
      ∀ start stop, get_stream_range store key start stop = []) := by
  refine ⟨?_, ?_, ?_, ?_⟩
  · intro s ex start stop e hget
    unfold get_stream_range
    rw [hget]
    rw [List.mem_filter]
    constructor
    · rintro ⟨hmem, hcond⟩
      rw [Bool.and_eq_true] at hcond
      obtain ⟨h1, h2⟩ := hcond
      refine ⟨hmem, ?_, ?_⟩
      · intro a ha
        subst ha
        simp only at h1
        rw [seidLe_iff] at h1
        exact h1
      · intro b hb
        subst hb
        simp only at h2
        rw [seidLe_iff] at h2
        exact h2
    · rintro ⟨hmem, h1, h2⟩
      refine ⟨hmem, ?_⟩
      rw [Bool.and_eq_true]
      constructor
      · rcases start with _ | a
        · simp
        · simp only
          rw [seidLe_iff]
          exact h1 a rfl
      · rcases stop with _ | b
        · simp
        · simp only
          rw [seidLe_iff]
          exact h2 b rfl
  · intro s ex start stop hget
    unfold get_stream_range
    rw [hget]
    exact List.filter_sublist s
  · intro hget start stop
    unfold get_stream_range
    rw [hget]
  · intro v ex hget start stop
    unfold get_stream_range
    rw [hget]

/-- Witness for C7 at a concrete input: an entry with id equal to the start
bound is included (inclusive comparison). -/
theorem get_stream_range_inclusive_witness :
    (⟨⟨1, 1⟩, [("a", "1")]⟩ : StreamEntry) ∈
      get_stream_range
        [("s", ⟨ValueType.stream [⟨⟨1, 1⟩, [("a", "1")]⟩], none⟩)] "s"
        (some ⟨1, 1⟩) none ↔
      (⟨⟨1, 1⟩, [("a", "1")]⟩ : StreamEntry) ∈
          [(⟨⟨1, 1⟩, [("a", "1")]⟩ : StreamEntry)] ∧
        (∀ a, (some ⟨1, 1⟩ : Option StreamEntryId) = some a →
          a.timestamp < 1 ∨ (a.timestamp = 1 ∧ a.sequence_number ≤ 1)) ∧
        (∀ b, (none : Option StreamEntryId) = some b →
          (1 : Nat) < b.timestamp ∨
            (1 = b.timestamp ∧ 1 ≤ b.sequence_number)) :=
  (get_stream_range_inclusive
    [("s", ⟨ValueType.stream [⟨⟨1, 1⟩, [("a", "1")]⟩], none⟩)] "s").1
    [⟨⟨1, 1⟩, [("a", "1")]⟩] none (some ⟨1, 1⟩) none ⟨⟨1, 1⟩, [("a", "1")]⟩
    (by rfl)

/-! ## Decimal round-trip lemmas -/

theorem decDigitsRev_lt (n : Nat) : ∀ d ∈ decDigitsRev n, d < 10 := by
  induction n using Nat.strong_induction_on with
  | _ n ih =>
    rw [decDigitsRev]
    by_cases h : n < 10
    · simp [h]
    · simp only [dif_neg h]
      intro d hd
      rcases List.mem_cons.mp hd with h1 | h1
      · subst h1
        exact Nat.mod_lt _ (by omega)
      · exact ih (n / 10) (Nat.div_lt_self (by omega) (by omega)) d h1

theorem decDigitsRev_ne_nil (n : Nat) : decDigitsRev n ≠ [] := by
  rw [decDigitsRev]
  by_cases h : n < 10 <;> simp [h]

theorem natToDecBytes_mem (n : Nat) : ∀ b ∈ natToDecBytes n, 48 ≤ b ∧ b ≤ 57 := by
  intro b hb
  unfold natToDecBytes at hb
  rw [List.mem_map] at hb
  obtain ⟨d, hd, rfl⟩ := hb
  rw [List.mem_reverse] at hd
  have := decDigitsRev_lt n d hd
  constructor <;> omega

theorem natToDecBytes_ne_nil (n : Nat) : natToDecBytes n ≠ [] := by
  unfold natToDecBytes
  simp [decDigitsRev_ne_nil n]

theorem foldl_decDigits (n : Nat) : ∀ acc : Nat,
    ((decDigitsRev n).reverse.map (fun d => d + 48)).foldl
      (fun a b => a * 10 + (b - 48)) acc
      = acc * 10 ^ (decDigitsRev n).length + n := by
  induction n using Nat.strong_induction_on with
  | _ n ih =>
    intro acc
    rw [decDigitsRev]
    by_cases h : n < 10
    · simp [h]
    · simp only [dif_neg h, List.reverse_cons, List.map_append, List.foldl_append,
        ih (n / 10) (Nat.div_lt_self (by omega) (by omega)) acc,
        List.map_cons, List.map_nil, List.foldl_cons, List.foldl_nil,
        List.length_cons]
      rw [pow_succ, ← Nat.mul_assoc]
      generalize acc * 10 ^ (decDigitsRev (n / 10)).length = q
      omega

theorem parseDigits_natToDecBytes (n : Nat) :
    parseDigits (natToDecBytes n) = some n := by
  unfold parseDigits
  rw [if_neg (natToDecBytes_ne_nil n)]
  have hall : (natToDecBytes n).all (fun b => decide (48 ≤ b ∧ b ≤ 57)) = true := by
    rw [List.all_eq_true]
    intro b hb
    have := natToDecBytes_mem n b hb
    simpa using this
  rw [if_pos hall]
  unfold decAccum natToDecBytes
  rw [foldl_decDigits n 0]
  simp

theorem parse_rust_usize_natToDecBytes (n : Nat) :
    parse_rust_usize (natToDecBytes n) = some n := by
  rcases hh : natToDecBytes n with _ | ⟨b, bs⟩
  · exact absurd hh (natToDecBytes_ne_nil n)
  · have hb : 48 ≤ b ∧ b ≤ 57 := natToDecBytes_mem n b (by rw [hh]; simp)
    unfold parse_rust_usize
    split
    · rename_i heq
      simp at heq
      exfalso
      omega
    · rw [← hh]
      exact parseDigits_natToDecBytes n

/-! ## RESP decoder vs encoder lemmas -/

theorem find_until_append_crlf (ds r : List Nat) (h : ∀ d ∈ ds, d ≠ 13) :
    find_until_next_delimiter (ds ++ 13 :: 10 :: r) = (ds, r) := by
  induction ds with
  | nil => simp [find_until_next_delimiter]
  | cons d ds ih =>
    have hd : d ≠ 13 := h d (by simp)
    have hds : ∀ x ∈ ds, x ≠ 13 := fun x hx => h x (by simp [hx])
    have ihr := ih hds
    rw [List.cons_append]
    rw [find_until_next_delimiter.eq_def]
    cases hcase : ds ++ 13 :: 10 :: r with
    | nil => exact absurd hcase (by simp)
    | cons e es =>
      dsimp only
      rw [if_neg (by simp [hd])]
      rw [hcase] at ihr
      simp [ihr]

theorem natToDecBytes_ne_13 (n : Nat) : ∀ b ∈ natToDecBytes n, b ≠ 13 := by
  intro b hb
  obtain ⟨h1, h2⟩ := natToDecBytes_mem n b hb
  omega

theorem parse_bulk_encoded (v rest : List Nat) (hv : validUtf8 v = true) :
    parse_bulk_string_like
        (natToDecBytes v.length ++ 13 :: 10 :: (v ++ 13 :: 10 :: rest)) =
      (rest, some (.string v)) := by
  unfold parse_bulk_string_like
  rw [find_until_append_crlf _ _ (natToDecBytes_ne_13 _)]
  dsimp only
  rw [parse_rust_usize_natToDecBytes]
  dsimp only
  have ht : (v ++ 13 :: 10 :: rest).take v.length = v := List.take_left v _
  have hd : (v ++ 13 :: 10 :: rest).drop v.length = 13 :: 10 :: rest :=
    List.drop_left v _
  rw [ht, hd]
  dsimp only
  rw [if_pos hv]

theorem parse_array_elems_encoded (vs : List (List Nat)) (rest : List Nat)
    (hv : ∀ v ∈ vs, validUtf8 v = true) :
    parse_array_elems vs.length ((vs.map format_string_bytes).flatten ++ rest) =
      (rest, vs) := by
  induction vs with
  | nil => simp [parse_array_elems]
  | cons v vs ih =>
    have hv0 : validUtf8 v = true := hv v (by simp)
    have hvs : ∀ x ∈ vs, validUtf8 x = true := fun x hx => hv x (by simp [hx])
    rw [List.length_cons]
    rw [parse_array_elems]
    have hshape :
        ((v :: vs).map format_string_bytes).flatten ++ rest =
          36 :: (natToDecBytes v.length ++ 13 :: 10 ::
            (v ++ 13 :: 10 :: ((vs.map format_string_bytes).flatten ++ rest))) := by
      simp [format_string_bytes]
    rw [hshape]
    simp only [List.drop_succ_cons, List.drop_zero]
    rw [parse_bulk_encoded _ _ hv0]
    dsimp only
    rw [ih hvs]

theorem parse_array_encoded (vs : List (List Nat)) (rest : List Nat)
    (hv : ∀ v ∈ vs, validUtf8 v = true) :
    parse_array_into_command
        (natToDecBytes vs.length ++ 13 :: 10 ::
          ((vs.map format_string_bytes).flatten ++ rest)) =
      (rest,
        match verbOf (vs.headD []) with
        | none => none
        | some verb => some (.command ⟨verb, vs⟩)) := by
  unfold parse_array_into_command
  rw [find_until_append_crlf _ _ (natToDecBytes_ne_13 _)]
  dsimp only
  rw [parse_rust_usize_natToDecBytes]
  dsimp only
  rw [parse_array_elems_encoded vs rest hv]
  rcases hverb : verbOf (vs.headD []) with _ | verb <;> simp [hverb]

/-- C8. RESP encode/decode round-trip: decoding the RESP-array encoding of
a command's argv (whose tokens are valid UTF-8 and whose first token
uppercases to a recognized verb) yields exactly one `command` frame with
that verb and that argv. -/
theorem resp_decode_encode (argv : List (List Nat)) (verb : CommandVerb)
    (hvalid : ∀ v ∈ argv, validUtf8 v = true)
    (hverb : verbOf (argv.headD []) = some verb) :
    parse_buffer (format_array_bytes argv) = some [.command ⟨verb, argv⟩] := by
  unfold parse_buffer
  have hshape : format_array_bytes argv =
      42 :: (natToDecBytes argv.length ++ 13 :: 10 ::
        ((argv.map format_string_bytes).flatten ++ [])) := by
    simp [format_array_bytes]
  rw [hshape]
  rw [parse_buffer_go]
  simp only [reduceIte]
  rw [parse_array_encoded argv [] hvalid]
  rw [hverb]
  rw [parse_buffer_go]
  rfl

/-- Witness for C8 at a concrete input: `["ping", "k"]` (lowercase verb
token) round-trips to a `PING` command with the original argv. -/
theorem resp_decode_encode_witness :
    parse_buffer (format_array_bytes [[112, 105, 110, 103], [107]]) =
      some [.command ⟨.PING, [[112, 105, 110, 103], [107]]⟩] :=
  resp_decode_encode [[112, 105, 110, 103], [107]] .PING
    (by decide) (by decide)

/-- Counterexample for C9: the decoder panics (modelled `none`) on a buffer
whose frame starts with `:` (byte 58) — the `_ => panic!()` arm of
`parse_buffer` — rather than dropping the frame and returning normally. -/
theorem parse_buffer_panics_on_unknown_prefix :
    parse_buffer [58] = none := by
  unfold parse_buffer
  rw [parse_buffer_go.eq_def]
  norm_num

/-- C9 (amended). Within buffers whose frames start with `+`, `$` or `*`:
a well-formed array frame whose first token is not a recognized verb is
dropped — no frame is emitted for it, no error reply is synthesized — and
decoding continues with the remaining bytes exactly as if the frame had
not been there. (A frame starting with any other byte panics the decoder;
see the counterexample.) -/
theorem unknown_verb_frame_dropped (argv : List (List Nat))
    (rest : List Nat)
    (hvalid : ∀ v ∈ argv, validUtf8 v = true)
    (hverb : verbOf (argv.headD []) = none) :
    parse_buffer (format_array_bytes argv ++ rest) = parse_buffer rest := by
  unfold parse_buffer
  have hshape : format_array_bytes argv ++ rest =
      42 :: (natToDecBytes argv.length ++ 13 :: 10 ::
        ((argv.map format_string_bytes).flatten ++ rest)) := by
    simp [format_array_bytes]
  rw [hshape]
  rw [parse_buffer_go]
  simp only [reduceIte]
  rw [parse_array_encoded argv rest hvalid]
  rw [hverb]
  rcases hgo : parse_buffer_go rest with _ | items <;> simp [hgo, consOpt]

/-- Witness for C9's amended theorem at a concrete input: an array frame
with unknown verb `"blah"` followed by `+OK\r\n` decodes to just the simple
string, the unknown frame being dropped. -/
theorem unknown_verb_frame_dropped_witness :
    parse_buffer (format_array_bytes [[98, 108, 97, 104], [107]] ++
        [43, 79, 75, 13, 10]) =
      parse_buffer [43, 79, 75, 13, 10] :=
  unknown_verb_frame_dropped [[98, 108, 97, 104], [107]] [43, 79, 75, 13, 10]
    (by decide) (by decide)

/-! ## The replica's offset tracking (C5, C10) -/

theorem replicaProcessSet_offset (st : ReplicaState) (cmd : List String)
    (now : Nat) :
    (replicaProcessSet st cmd now).replication_offset =
      st.replication_offset := by
  unfold replicaProcessSet
  split <;> rfl

theorem replicaProcessCommand_offset (st : ReplicaState) (config : Config)
    (c : Command) (now : Nat) (st1 : ReplicaState)
    (msgs : List ConnectionMessage)
    (h : replicaProcessCommand st config c now = some (st1, msgs)) :
    st1.replication_offset = st.replication_offset := by
  rcases c with ⟨verb, cmd⟩
  cases verb <;> unfold replicaProcessCommand at h <;> dsimp only at h <;>
    (try (repeat' split at h)) <;>
    simp_all [replicaProcessSet_offset]
  obtain ⟨h1, h2⟩ := h
  rw [← h1, replicaProcessSet_offset]

theorem track_replication_offset_eq (st : ReplicaState) (cmd : List String) :
    (track_replication_offset st cmd).replication_offset =
      st.replication_offset +
        (if trackedTokens cmd then (format_array cmd).utf8ByteSize else 0) := by
  unfold track_replication_offset trackedTokens
  rcases hh : cmd.head? with _ | t
  · simp
  · dsimp only
    by_cases hc : (t = "PING" ∨ t = "SET" ∨ t = "REPLCONF") <;> simp [hc]

theorem track_replication_offset_store (st : ReplicaState)
    (cmd : List String) :
    (track_replication_offset st cmd).store = st.store := by
  unfold track_replication_offset
  rcases hh : cmd.head? with _ | t
  · simp
  · dsimp only
    split <;> rfl

/-- C5 (amended). On a replica, after processing any sequence of commands
arriving on the master connection, `applied_bytes` has grown by the sum,
over exactly those received commands whose literal first argv token is
`PING`, `SET` or `REPLCONF` (a case-sensitive comparison on the raw token,
not on the decoded verb), of the byte length of the command's argv
re-encoded as a RESP array; commands with other first tokens, and all
commands from local clients, leave `applied_bytes` unchanged. -/
theorem replica_applied_bytes (config : Config) (now : Nat) :
    (∀ cmds st st1 msgs,
      replicaPollMaster config now st cmds = some (st1, msgs) →
      st1.replication_offset = st.replication_offset +
        ((cmds.filter trackedCmd).map
          (fun c => (format_array c.cmd).utf8ByteSize)).sum) ∧
    (∀ cmds st st1 msgs,
      replicaPollClients config now st cmds = some (st1, msgs) →
      st1.replication_offset = st.replication_offset) := by
  constructor
  · intro cmds
    induction cmds with
    | nil =>
      intro st st1 msgs h
      unfold replicaPollMaster at h
      simp at h
      simp [h.1]
    | cons c cs ih =>
      intro st st1 msgs h
      unfold replicaPollMaster at h
      rcases hp : replicaProcessCommand st config c now with _ | p
      · rw [hp] at h
        simp at h
      obtain ⟨st1', msgs'⟩ := p
      rw [hp] at h
      dsimp only at h
      rcases hr : replicaPollMaster config now
          (track_replication_offset st1' c.cmd) cs with _ | q
      · rw [hr] at h
        simp at h
      obtain ⟨stF, msgsRest⟩ := q
      rw [hr] at h
      simp at h
      obtain ⟨h1, h2⟩ := h
      subst h1
      have hoff := replicaProcessCommand_offset st config c now st1' msgs' hp
      have htr := track_replication_offset_eq st1' c.cmd
      have hih := ih (track_replication_offset st1' c.cmd) stF msgsRest hr
      rw [hih, htr, hoff]
      unfold trackedCmd
      by_cases hc : trackedTokens c.cmd = true
      · simp [List.filter_cons, hc]
        omega
      · rw [Bool.not_eq_true] at hc
        simp [List.filter_cons, hc]
  · intro cmds
    induction cmds with
    | nil =>
      intro st st1 msgs h
      unfold replicaPollClients at h
      simp at h
      simp [h.1]
    | cons c cs ih =>
      intro st st1 msgs h
      unfold replicaPollClients at h
      rcases hp : replicaProcessCommand st config c now with _ | p
      · rw [hp] at h
        simp at h
      obtain ⟨st1', msgs'⟩ := p
      rw [hp] at h
      dsimp only at h
      rcases hr : replicaPollClients config now st1' cs with _ | q
      · rw [hr] at h
        simp at h
      obtain ⟨stF, msgsRest⟩ := q
      rw [hr] at h
      simp at h
      obtain ⟨h1, h2⟩ := h
      subst h1
      have hoff := replicaProcessCommand_offset st config c now st1' msgs' hp
      have hih := ih st1' stF msgsRest hr
      rw [hih, hoff]

/-- Counterexample for C5: a propagated command with verb `SET` whose raw
first token is lowercase `"set"` is applied to the store but adds nothing
to `applied_bytes` (which the claim, summing over commands whose *verb* is
`SET`, says should grow by the re-encoded length 27). -/
theorem replica_applied_bytes_counterexample :
    replicaPollMaster ⟨[], 6379, ⟨.Master, "", 0⟩⟩ 0 ⟨[], 0⟩
        [⟨.SET, ["set", "k", "v"]⟩] =
      some (⟨[("k", ⟨ValueType.string "v", none⟩)], 0⟩, []) ∧
    (format_array ["set", "k", "v"]).utf8ByteSize = 27 := by
  constructor
  · rfl
  · decide

/-- Witness for C5's amended theorem at a concrete input: an uppercase
`SET` adds its RESP length, a lowercase one adds nothing. -/
theorem replica_applied_bytes_witness :
    ∃ st1 msgs,
      replicaPollMaster ⟨[], 6379, ⟨.Master, "", 0⟩⟩ 0 ⟨[], 0⟩
          [⟨.SET, ["SET", "k", "v"]⟩, ⟨.SET, ["set", "k", "v"]⟩] =
        some (st1, msgs) ∧
      st1.replication_offset = 0 +
        (([(⟨.SET, ["SET", "k", "v"]⟩ : Command),
           ⟨.SET, ["set", "k", "v"]⟩].filter trackedCmd).map
          (fun c => (format_array c.cmd).utf8ByteSize)).sum := by
  refine ⟨⟨[("k", ⟨ValueType.string "v", none⟩)], 27⟩, [], by rfl, ?_⟩
  exact (replica_applied_bytes ⟨[], 6379, ⟨.Master, "", 0⟩⟩ 0).1
    [⟨.SET, ["SET", "k", "v"]⟩, ⟨.SET, ["set", "k", "v"]⟩]
    ⟨[], 0⟩ ⟨[("k", ⟨ValueType.string "v", none⟩)], 27⟩ [] (by rfl)

/-- C10. For every `REPLCONF GETACK *` received from the master after any
command sequence, the reply is the RESP array `REPLCONF ACK <n>` where `n`
is `applied_bytes` accumulated from the commands processed strictly before
the GETACK; the GETACK's own re-encoded length is added to `applied_bytes`
only after the ACK reply has been produced, so it is never included in
`n`. -/
theorem getack_ack_excludes_self (config : Config) (now : Nat)
    (st : ReplicaState) (cmds : List Command) (st1 : ReplicaState)
    (msgs : List ConnectionMessage)
    (h : replicaPollMaster config now st cmds = some (st1, msgs)) :
    replicaPollMaster config now st (cmds ++ [getackCommand]) =
      some ({ st1 with replication_offset := st1.replication_offset +
            (format_array getackCommand.cmd).utf8ByteSize },
        msgs ++ [.SendString (format_array
          ["REPLCONF", "ACK", toString st1.replication_offset])]) := by
  induction cmds generalizing st msgs with
  | nil =>
    unfold replicaPollMaster at h
    simp at h
    obtain ⟨h1, h2⟩ := h
    subst h1
    subst h2
    simp only [List.nil_append]
    unfold replicaPollMaster
    unfold replicaPollMaster
    simp [replicaProcessCommand, replicaProcessReplconf, getackCommand,
      track_replication_offset]
  | cons c cs ih =>
    unfold replicaPollMaster at h
    rcases hp : replicaProcessCommand st config c now with _ | p
    · rw [hp] at h
      simp at h
    obtain ⟨st1', msgs'⟩ := p
    rw [hp] at h
    dsimp only at h
    rcases hr : replicaPollMaster config now
        (track_replication_offset st1' c.cmd) cs with _ | q
    · rw [hr] at h
      simp at h
    obtain ⟨stF, msgsRest⟩ := q
    rw [hr] at h
    simp at h
    obtain ⟨h1, h2⟩ := h
    subst h1
    subst h2
    have := ih (track_replication_offset st1' c.cmd) msgsRest hr
    rw [List.cons_append]
    unfold replicaPollMaster
    rw [hp]
    dsimp only
    rw [this]
    simp

/-- Witness for C10 at a concrete input: with 5 bytes already applied, a
GETACK is answered `REPLCONF ACK 5` and only afterwards adds its own 37
bytes. -/
theorem getack_ack_excludes_self_witness :
    replicaPollMaster ⟨[], 6379, ⟨.Master, "", 0⟩⟩ 0 ⟨[], 5⟩
        ([] ++ [getackCommand]) =
      some (⟨[], 5 + (format_array getackCommand.cmd).utf8ByteSize⟩,
        [] ++ [.SendString (format_array ["REPLCONF", "ACK", toString 5])]) :=
  getack_ack_excludes_self ⟨[], 6379, ⟨.Master, "", 0⟩⟩ 0 ⟨[], 5⟩ [] ⟨[], 5⟩ []
    (by rfl)

/-! ## Transactions: queueing and EXEC (C3) -/

theorem strFoldlAppend (rs : List String) :
    ∀ a : String, rs.foldl (fun acc s => acc ++ s) a =
      a ++ rs.foldl (fun acc s => acc ++ s) "" := by
  induction rs with
  | nil =>
    intro a
    simp [String.append_empty]
  | cons x xs ih =>
    intro a
    simp only [List.foldl_cons]
    rw [ih (a ++ x), ih ("" ++ x), String.empty_append, String.append_assoc]

theorem string_join_cons (r : String) (rs : List String) :
    String.join (r :: rs) = r ++ String.join rs := by
  simp only [String.join, List.foldl_cons]
  rw [strFoldlAppend rs ("" ++ r), String.empty_append]

theorem execLoop_of_cleanRun (env : Env) (conn : String) :
    ∀ (cs : List Command) (st stF : MasterState) (ext : Out)
      (rs : List String),
      cleanRun env conn st cs = some (stF, ext, rs) →
      execLoop env conn st cs [] = some (stF, ext, String.join rs, false) := by
  intro cs
  induction cs with
  | nil =>
    intro st stF ext rs h
    unfold cleanRun at h
    simp at h
    obtain ⟨h1, h2, h3⟩ := h
    subst h1; subst h2; subst h3
    unfold execLoop
    rfl
  | cons c cs ih =>
    intro st stF ext rs h
    unfold cleanRun at h
    rcases hp : masterProcessSimple env st c Chan.dummy conn with _ | p
    · rw [hp] at h
      simp at h
    obtain ⟨st1, out⟩ := p
    rw [hp] at h
    dsimp only at h
    rcases hm : (out.filter (fun m => m.1 = Chan.dummy)).map (fun m => m.2)
      with _ | ⟨m0, ms⟩
    · rw [hm] at h
      simp at h
    rcases ms with _ | ⟨m1, ms2⟩
    · rcases m0 with r | bs
      · -- the singleton SendString case
        rw [hm] at h
        dsimp only at h
        rcases hc : cleanRun env conn st1 cs with _ | q
        · rw [hc] at h
          simp at h
        obtain ⟨stF1, ⟨ext1, rs1⟩⟩ := q
        rw [hc] at h
        simp at h
        obtain ⟨h1, h2, h3⟩ := h
        subst h1; subst h2; subst h3
        unfold execLoop
        rw [hp]
        dsimp only
        rw [hm]
        dsimp only [List.nil_append]
        rw [ih st1 stF1 ext1 rs1 hc]
        dsimp only
        rw [string_join_cons]
        simp [decide_not]
      · rw [hm] at h
        simp at h
    · rw [hm] at h
      simp at h

theorem cleanRun_length (env : Env) (conn : String) :
    ∀ (cs : List Command) (st stF : MasterState) (ext : Out)
      (rs : List String),
      cleanRun env conn st cs = some (stF, ext, rs) →
      rs.length = cs.length := by
  intro cs
  induction cs with
  | nil =>
    intro st stF ext rs h
    unfold cleanRun at h
    simp at h
    simp [h.2.2]
  | cons c cs ih =>
    intro st stF ext rs h
    unfold cleanRun at h
    rcases hp : masterProcessSimple env st c Chan.dummy conn with _ | p
    · rw [hp] at h
      simp at h
    obtain ⟨st1, out⟩ := p
    rw [hp] at h
    dsimp only at h
    rcases hm : (out.filter (fun m => m.1 = Chan.dummy)).map (fun m => m.2)
      with _ | ⟨m0, ms⟩
    · rw [hm] at h
      simp at h
    rcases ms with _ | ⟨m1, ms2⟩
    · rcases m0 with r | bs
      · rw [hm] at h
        dsimp only at h
        rcases hc : cleanRun env conn st1 cs with _ | q
        · rw [hc] at h
          simp at h
        obtain ⟨stF1, ⟨ext1, rs1⟩⟩ := q
        rw [hc] at h
        simp at h
        obtain ⟨h1, h2, h3⟩ := h
        subst h3
        simp [ih st1 stF1 ext1 rs1 hc]
      · rw [hm] at h
        simp at h
    · rw [hm] at h
      simp at h

/-- C3 (amended). While a transaction exists for connection C, every
command from C other than `EXEC` and `DISCARD` is appended to the
transaction's queue and answered `+QUEUED` without touching the store; a
subsequent `EXEC` — provided each queued command, executed against the
store exactly as a standalone command (the same `masterProcessSimple`),
produces exactly one string reply — replies with a single RESP array whose
length equals the number of queued commands, each element being that
command's captured reply, with external messages (e.g. replica
propagation) still flowing out. (Without that proviso `EXEC` can block
forever; see the counterexample.) -/
theorem transaction_exec_contract (env : Env) (st : MasterState)
    (conn : String) (t : Transaction)
    (ht : transFind st.transactions conn = some t) :
    (∀ c tx, c.verb ≠ CommandVerb.EXEC → c.verb ≠ CommandVerb.DISCARD →
      process_command env st c tx conn =
        some ({ st with transactions := transInsert (transRemove st.transactions conn) conn ({ t with commands := t.commands ++ [c] }) },
          [(tx, .SendString "+QUEUED\r\n")])) ∧
    (∀ tx stF ext rs,
      cleanRun env conn
          { st with transactions := transRemove st.transactions conn }
          t.commands = some (stF, ext, rs) →
      rs.length = t.commands.length ∧
      process_command env st ⟨CommandVerb.EXEC, ["EXEC"]⟩ tx conn =
        some ({ stF with transactions := transRemove stF.transactions conn },
          ext ++ [(t.client_tx, .SendString
            ("*" ++ toString t.commands.length ++ crlfS ++
              String.join rs))])) := by
  constructor
  · intro c tx hexec hdiscard
    unfold process_command
    rw [ht]
    dsimp only
    rw [if_neg hexec, if_neg hdiscard]
  · intro tx stF ext rs hclean
    refine ⟨cleanRun_length env conn t.commands _ stF ext rs hclean, ?_⟩
    unfold process_command
    rw [ht]
    dsimp only
    rw [if_pos rfl]
    unfold process_exec
    rw [execLoop_of_cleanRun env conn t.commands _ stF ext rs hclean]
    rfl

/-- Counterexample for C3: `EXEC` over a queue holding an argument-less
`GET` — a command that produces no reply — makes `process_exec` block
forever on its capture channel (modelled `none`): no RESP array of any
length is ever sent. -/
theorem exec_blocks_on_replyless_command :
    process_command envW stTxStuck ⟨CommandVerb.EXEC, ["EXEC"]⟩
      (Chan.real 1) "c" = none := by
  rfl

/-- Witness for C3 at a concrete input: the spec's §8 scenario
(`MULTI; SET k 1; INCR k; EXEC`) replies `*2\r\n+OK\r\n:2\r\n`. -/
theorem transaction_exec_contract_witness :
    (["+OK\r\n", ":2\r\n"] : List String).length =
      ([⟨CommandVerb.SET, ["SET", "k", "1"]⟩,
        ⟨CommandVerb.INCR, ["INCR", "k"]⟩] : List Command).length ∧
    process_command envW stTx ⟨CommandVerb.EXEC, ["EXEC"]⟩ (Chan.real 1) "c" =
      some ({ (⟨[("k", ⟨ValueType.string "2", none⟩)], ⟨5, 0⟩, [], none, [],
            []⟩ : MasterState) with
          transactions := transRemove [] "c" },
        [] ++ [(Chan.real 1, .SendString
          ("*" ++ toString ([⟨CommandVerb.SET, ["SET", "k", "1"]⟩,
              ⟨CommandVerb.INCR, ["INCR", "k"]⟩] : List Command).length ++
            crlfS ++ String.join ["+OK\r\n", ":2\r\n"]))]) :=
  (transaction_exec_contract envW stTx "c"
      ⟨Chan.real 1, [⟨.SET, ["SET", "k", "1"]⟩, ⟨.INCR, ["INCR", "k"]⟩]⟩
      (by rfl)).2
    (Chan.real 1) ⟨[("k", ⟨ValueType.string "2", none⟩)], ⟨5, 0⟩, [], none,
      [], []⟩ [] ["+OK\r\n", ":2\r\n"] (by rfl)

/-! ## WAIT (C4) -/

/-- C4. `WAIT n timeout_ms`: `n = 0` replies `:0` immediately; an
unchanged checkpoint (`last_ack_checkpoint = propagated_bytes`) replies
the connected-replica count immediately; otherwise `REPLCONF GETACK *`
goes to every replica channel and a WaitForReplicationAcks with deadline
`now + timeout_ms` is installed with no reply to the client; on a later
tick, as soon as `received ≥ expected` or the deadline has passed, the
client receives `:<received>`, the checkpoint is set to
`propagated_bytes`, and the task is cleared. -/
theorem wait_contract (st : MasterState) (cmd : List String) (tx : Chan)
    (now n tms : Nat)
    (hn : (cmd.get? 1).bind parseUsizeS = some n)
    (htms : (cmd.get? 2).bind parseUsizeS = some tms) :
    (n = 0 →
      masterProcessWait st cmd tx now =
        (st, [(tx, .SendString (":0" ++ crlfS))])) ∧
    (n ≠ 0 →
      st.replication.last_offset_checked =
        st.replication.replication_offset →
      masterProcessWait st cmd tx now =
        (st, [(tx, .SendString
          (":" ++ toString st.replicas.length ++ crlfS))])) ∧
    (n ≠ 0 →
      st.replication.last_offset_checked ≠
        st.replication.replication_offset →
      masterProcessWait st cmd tx now =
        ({ st with wait_for_replication_acks := some ⟨tx, n, 0, some (now + tms)⟩ },
          st.replicas.map (fun r =>
            (r, .SendString (format_array ["REPLCONF", "GETACK", "*"]))))) ∧
    (∀ task now2, st.wait_for_replication_acks = some task →
      (task.expected_number_of_acks ≤ task.number_of_acks ∨
        (∃ tmo, task.timeout = some tmo ∧ tmo ≤ now2)) →
      check_on_replication_waits st now2 =
        ({ st with
            replication := { st.replication with last_offset_checked := st.replication.replication_offset },
            wait_for_replication_acks := none },
          [(task.initial_client_tx, .SendString
            (":" ++ toString task.number_of_acks ++ crlfS))])) := by
  refine ⟨?_, ?_, ?_, ?_⟩
  · intro h0
    subst h0
    unfold masterProcessWait
    rw [hn]
    dsimp only
    rw [if_pos rfl]
  · intro hne heq
    unfold masterProcessWait
    rw [hn]
    dsimp only
    rw [if_neg hne, if_pos heq]
  · intro hne hneq
    unfold masterProcessWait
    rw [hn]
    dsimp only
    rw [if_neg hne, if_neg hneq]
    rw [htms]
    rfl
  · intro task now2 htask hres
    unfold check_on_replication_waits
    rw [htask]
    dsimp only
    rcases hto : task.timeout with _ | tmo
    · rcases hres with hres | ⟨tmo, htmo, _⟩
      · simp [hres]
      · rw [hto] at htmo
        exact absurd htmo (by simp)
    · by_cases hle : tmo ≤ now2
      · simp [hle]
      · rcases hres with hres | ⟨tmo2, htmo, hle2⟩
        · simp [hle, hres]
        · rw [hto] at htmo
          have : tmo2 = tmo := by
            injection htmo.symm
          subst this
          exact absurd hle2 hle

/-- Witness for C4 at a concrete input: `WAIT 3 100` with one replica and
unpropagated writes fans out GETACK and installs the deferred task. -/
theorem wait_contract_witness :
    masterProcessWait stWait ["WAIT", "3", "100"] (Chan.real 1) 100 =
      ({ stWait with wait_for_replication_acks := some ⟨Chan.real 1, 3, 0, some (100 + 100)⟩ },
        stWait.replicas.map (fun r =>
          (r, .SendString (format_array ["REPLCONF", "GETACK", "*"])))) :=
  (wait_contract stWait ["WAIT", "3", "100"] (Chan.real 1) 100 3 100
    (by rfl) (by rfl)).2.2.1 (by decide) (by decide)

/-! ## Blocking XREAD fulfillment (C6) -/

/-- C6 at the failing input: with a BlockingXREAD watching `"s"`
(deadline 500) registered, a successful `XADD s 1-1 temp 30` at t = 100
does send the task the claimed single-stream reply
`*1\r\n*2\r\n$1\r\ns\r\n<stream-of-[entry]>\r\n` — but the task is NOT
removed from `blocking_xreads`, so the deadline tick at t = 600 sends the
same (already fulfilled) task a second reply `$-1\r\n`, contradicting the
claim that a BlockingXREAD is destroyed on fulfillment. -/
theorem xadd_fulfilled_task_not_destroyed :
    process_command envW stBx ⟨CommandVerb.XADD,
        ["XADD", "s", "1-1", "temp", "30"]⟩ (Chan.real 1) "c" =
      some (⟨[("s", ⟨ValueType.stream [⟨⟨1, 1⟩, [("temp", "30")]⟩], none⟩)],
          ⟨0, 0⟩, [], none, [⟨Chan.real 9, ["s"], some 500⟩], []⟩,
        [(Chan.real 1, .SendString "$3\r\n1-1\r\n"),
         (Chan.real 9, .SendString
           "*1\r\n*2\r\n$1\r\ns\r\n*1\r\n*2\r\n$3\r\n1-1\r\n*2\r\n$4\r\ntemp\r\n$2\r\n30\r\n")]) ∧
    check_on_blocking_xreads
        ⟨[("s", ⟨ValueType.stream [⟨⟨1, 1⟩, [("temp", "30")]⟩], none⟩)],
          ⟨0, 0⟩, [], none, [⟨Chan.real 9, ["s"], some 500⟩], []⟩ 600 =
      (⟨[("s", ⟨ValueType.stream [⟨⟨1, 1⟩, [("temp", "30")]⟩], none⟩)],
          ⟨0, 0⟩, [], none, [], []⟩,
        [(Chan.real 9, .SendString "$-1\r\n")]) := by
  constructor
  · rfl
  · rfl

end RedisModel
